import Mathlib

/-!
# siftfastpy: marshaling layer of libsiftfast

Shallow embedding of `src/siftfastpy.cpp` and proofs about it.

Conventions of the embedding

* `int` is a 32-bit two's complement integer: a value is an `Int` in
  `[-2^31, 2^31)` and every result of `int` arithmetic on values that the
  caller or the engine controls (sizes, counters, buffer indices) is reduced
  with `toInt32`. The counters `i`, `j` of the `for` loops run over natural
  numbers below their bound.
* `size_t` and addresses are 64-bit: a `Nat` reduced modulo `2^64`.
* `NULL` is `none`.
* A `Keypoint` (pointer to the head of a null-terminated singly linked list
  of `KeypointSt`) is the list of records reached from it: `NULL` is `[]`,
  and a record whose `next` is `l` is `k :: l`.
* `float` and `double` are abstract types `F` and `D`; the conversions
  between them and the integers are the fields of `Conv`.
-/

set_option autoImplicit false

namespace SiftFastPy

/-! ## Machine integers -/

/-- Conversion of a mathematical integer to `int` (32-bit, wrapping). -/
def toInt32 (x : Int) : Int := (x + 2 ^ 31) % 2 ^ 32 - 2 ^ 31

/-- Conversion of a mathematical integer to `size_t` (64-bit, wrapping). -/
def toSizeT (x : Int) : Nat := (x % 2 ^ 64).toNat

/-- The 32-bit pattern of an `int`. -/
def toUInt32 (x : Int) : Nat := (x % 2 ^ 32).toNat

/-- The expression `x & ~3` on `int`: bitwise and of the 32-bit patterns,
`~3` being `0xFFFFFFFC`. -/
def andNot3 (x : Int) : Int := toInt32 ((toUInt32 x &&& 0xFFFFFFFC : Nat) : Int)

/-! ## Aligned allocation (lines 39-61) -/

/-- The offset `off` of line 47,
`int off = 4+align - ((int)(size_t)(p+4) % align);`
for the base address `p` returned by `malloc`.
`(int)(size_t)(p+4)` truncates the address to `int`; in `% align` that `int`
is converted to `size_t`; `4+align-...` is `size_t` arithmetic, converted to
`int` by the initialisation. -/
def alignedOff (p align : Nat) : Int :=
  let x : Int := toInt32 (((p + 4) % 2 ^ 64 : Nat) : Int)
  let r : Nat := toSizeT x % align
  toInt32 ((((4 + align) % 2 ^ 64 + 2 ^ 64 - r) % 2 ^ 64 : Nat) : Int)

/-- The function `py_aligned_malloc(size, align)`. `malloc n` is the result of
the underlying `malloc(n)`: `none` for `NULL`, else the base address. The
result is the returned pointer `p + off`. -/
def py_aligned_malloc (malloc : Nat → Option Nat) (size align : Nat) : Option Int :=
  match malloc ((size + align) % 2 ^ 64) with
  | none => none
  | some p => some ((p : Int) + alignedOff p align)

/-- The bytes `[lo, hi)` lie inside the block of `n` bytes starting at `p`. -/
def insideBlock (p n : Nat) (lo hi : Int) : Prop :=
  (p : Int) ≤ lo ∧ lo ≤ hi ∧ hi ≤ (p : Int) + n

instance (p n : Nat) (lo hi : Int) : Decidable (insideBlock p n lo hi) := by
  unfold insideBlock; infer_instance

/-! ## Image construction (lines 125-130) -/

/-- Result of running a piece of the binding: normal return, a C++ exception
propagating to the caller (reported to Python as an error), or undefined
behaviour (null dereference, access outside a buffer). -/
inductive Outcome (α : Type) where
  | ok (a : α)
  | raised (msg : String)
  | undefined (what : String)
  deriving Repr, DecidableEq

/-- The class `PyImage`: `int width,height,stride; vector<float> vimage;`. -/
structure PyImage (F : Type) where
  width : Int
  height : Int
  stride : Int
  vimage : List F
  deriving Repr, DecidableEq

/-- The constructor `PyImage(int width, int height)`. `BOOST_ASSERT` throws a
`siftfast_exception` through `assertion_failed`. `vimage.resize(height*stride)`
multiplies in `int`, converts to `size_t`, and value-initialises the new
elements to `zero`; a negative product becomes a size above `max_size()` and
`resize` throws `std::length_error`. -/
def PyImage.init {F : Type} (zero : F) (width height : Int) : Outcome (PyImage F) :=
  if ¬ (width > 0 ∧ height > 0) then .raised "siftfast: assertion failed: width>0&&height>0"
  else
    let stride := andNot3 (toInt32 (width + 3))
    let n := toInt32 (height * stride)
    if n < 0 then .raised "std::length_error"
    else .ok { width := width, height := height, stride := stride,
               vimage := List.replicate n.toNat zero }

namespace Outcome

/-- Sequencing of two steps: an exception or undefined behaviour in the first
step ends the run. -/
def bind {α β : Type} (x : Outcome α) (f : α → Outcome β) : Outcome β :=
  match x with
  | .ok a => f a
  | .raised m => .raised m
  | .undefined w => .undefined w

instance : Monad Outcome where
  pure := Outcome.ok
  bind := Outcome.bind

/-- The run returned normally. -/
def isOk {α : Type} : Outcome α → Bool
  | .ok _ => true
  | _ => false

end Outcome

/-- The loop `for(i = i0; i < n; ++i) body`, whose body may throw. -/
def forLoop {σ : Type} (n : Nat) (body : Nat → σ → Outcome σ) (i : Nat) (s : σ) : Outcome σ :=
  if i < n then
    match body i s with
    | .ok s' => forLoop n body (i + 1) s'
    | .raised m => .raised m
    | .undefined w => .undefined w
  else .ok s
termination_by n - i

/-- The loop `for(i = i0; i < n; ++i) body` whose body receives the loop
condition `i < n`. -/
def forLoopP {σ : Type} (n : Nat) (body : (i : Nat) → i < n → σ → Outcome σ) (i : Nat)
    (s : σ) : Outcome σ :=
  if h : i < n then
    match body i h s with
    | .ok s' => forLoopP n body (i + 1) s'
    | .raised m => .raised m
    | .undefined w => .undefined w
  else .ok s
termination_by n - i

/-! ## Python values and numeric coercion (lines 346-411) -/

/-- Numeric conversions of the platform, over the `float` type `F` and the
`double` type `D`. -/
structure Conv (F D : Type) where
  /-- The value `0.0f`. -/
  zero : F
  /-- The conversion `(float)d` of a `double`. -/
  narrow : D → F
  /-- The conversion `(float)n` of an `int`. -/
  intToFloat : Int → F
  /-- The expression `n*(1.0f/255.0f)` for an `int n` (line 159). -/
  scale255 : Int → F
  /-- The call `PyNumber_Float` on a Python integer; `none` when it raises. -/
  ofInt : Int → Option D
  /-- The call `PyNumber_Int` on a Python float; `none` when it raises
  (infinities and NaN). -/
  trunc : D → Option Int
  /-- The `double` holding the value of a `float` element of an array. -/
  widen : F → D

/-- A Python scalar object as the converters see it. -/
inductive PyObject (D : Type) where
  | int (n : Int)
  | float (d : D)
  | str (s : String)
  | other
  deriving Repr, DecidableEq

variable {F D : Type}

/-- The call `PyNumber_Int(obj)` for a non-string object. -/
def PyNumber_Int (cv : Conv F D) : PyObject D → Option Int
  | .int n => some n
  | .float d => cv.trunc d
  | .str _ => none
  | .other => none

/-- The call `PyNumber_Float(obj)` for a non-string object. -/
def PyNumber_Float (cv : Conv F D) : PyObject D → Option D
  | .int n => cv.ofInt n
  | .float d => some d
  | .str _ => none
  | .other => none

/-- The test `int_from_int::convertible`, which is `extract<int>(o).check()`:
`!PyString_Check(obj) && PyNumber_Int(obj)`. -/
def int_convertible (cv : Conv F D) (o : PyObject D) : Bool :=
  match o with
  | .str _ => false
  | _ => (PyNumber_Int cv o).isSome

/-- The test `T_from_number<T>::convertible`, which is `extract<float>(o).check()`
and `extract<double>(o).check()`: `!PyString_Check(obj) && PyNumber_Float(obj)`. -/
def number_convertible (cv : Conv F D) (o : PyObject D) : Bool :=
  match o with
  | .str _ => false
  | _ => (PyNumber_Float cv o).isSome

/-- The conversion `extract<int>(o)`: a `TypeError` when not convertible, else
`int_from_int::construct`, which extracts an `int` from `PyNumber_Int(o)` and
raises `OverflowError` outside the range of `int`. -/
def extract_int (cv : Conv F D) (o : PyObject D) : Outcome Int :=
  if int_convertible cv o then
    match PyNumber_Int cv o with
    | some n => if -2 ^ 31 ≤ n ∧ n < 2 ^ 31 then .ok n else .raised "OverflowError"
    | none => .raised "TypeError"
  else .raised "TypeError"

/-- The conversion `extract<double>(o)`. -/
def extract_double (cv : Conv F D) (o : PyObject D) : Outcome D :=
  if number_convertible cv o then
    match PyNumber_Float cv o with
    | some d => .ok d
    | none => .raised "TypeError"
  else .raised "TypeError"

/-- The conversion `extract<float>(o)`: `T_from_number<float>::construct`
narrows the `double` of `PyNumber_Float(o)`. -/
def extract_float (cv : Conv F D) (o : PyObject D) : Outcome F :=
  if number_convertible cv o then
    match PyNumber_Float cv o with
    | some d => .ok (cv.narrow d)
    | none => .raised "TypeError"
  else .raised "TypeError"

/-- A numpy array object received from the caller: its `shape`, the name of
its `dtype`, and the element `arr[i][j]`. -/
structure NdArrayObj (D : Type) where
  shape : List Nat
  dtype : String
  item : Nat → Nat → PyObject D

/-- The expression `arr[i][j]`: an `IndexError` outside a 2-dimensional shape. -/
def NdArrayObj.getitem2 (arr : NdArrayObj D) (i j : Nat) : Outcome (PyObject D) :=
  match arr.shape with
  | [h, w] => if i < h ∧ j < w then .ok (arr.item i j) else .raised "IndexError"
  | _ => .raised "IndexError"

/-- The test of lines 153-154 on the name of the dtype, a `std::string`:
its bytes start with `int`, or hold `int` from the second byte on. The bytes
105, 110 and 116 are the characters `i`, `n` and `t`. -/
def isIntDtype (dtype : String) : Bool :=
  let c := dtype.toUTF8.data.toList
  (decide (c.length ≥ 3) && c.get? 0 == some 105 && c.get? 1 == some 110 && c.get? 2 == some 116) ||
  (decide (c.length ≥ 4) && c.get? 1 == some 105 && c.get? 2 == some 110 && c.get? 3 == some 116)

/-! ## Image normalizer (lines 131-180) -/

/-- The assignment `buf[k] = v` for an `int` index `k`; an index outside the
buffer is undefined behaviour. -/
def writeAt (buf : List F) (k : Int) (v : F) : Outcome (List F) :=
  if 0 ≤ k ∧ k < buf.length then .ok (buf.set k.toNat v)
  else .undefined "store outside the buffer"

/-- One assignment `vimage[i*stride+j] = conv(arr[i][j])` of the double loop:
the right-hand side is evaluated, and may throw, before the store; the index
is computed in `int`. -/
def fillStep (arr : NdArrayObj D) (conv : PyObject D → Outcome F) (stride : Int) (i j : Nat)
    (buf : List F) : Outcome (List F) := do
  let o ← arr.getitem2 i j
  let v ← conv o
  writeAt buf (toInt32 (toInt32 ((i : Int) * stride) + j)) v

/-- The double loop of lines 157-159, 166-168 and 173-175,
`for i < height, for j < width: vimage[i*stride+j] = conv(arr[i][j])`,
with `conv` the element conversion of the branch. -/
def fillImage (im : PyImage F) (arr : NdArrayObj D) (conv : PyObject D → Outcome F)
    (vimage : List F) : Outcome (List F) :=
  forLoop im.height.toNat (fun i buf =>
    forLoop im.width.toNat (fun j buf => fillStep arr conv im.stride i j buf) 0 buf) 0 vimage

/-- The conversion of the first branch, line 159:
`extract<int>(arr[i][j])*(1.0f/255.0f)`. -/
def convInt (cv : Conv F D) (o : PyObject D) : Outcome F :=
  (extract_int cv o).bind (fun n => .ok (cv.scale255 n))

/-- The conversion of the third branch, line 175: `extract<double>(arr[i][j])`
assigned to a `float`. -/
def convDouble (cv : Conv F D) (o : PyObject D) : Outcome F :=
  (extract_double cv o).bind (fun d => .ok (cv.narrow d))

/-- The method `PyImage::SetData(arr)`. The element `arr[0][0]`, which the
source reads again for each `check()`, is read once: it raises the same
`IndexError` before any store when the array has no element. -/
def PyImage.SetData (cv : Conv F D) (im : PyImage F) (arr : NdArrayObj D) :
    Outcome (PyImage F) :=
  if arr.shape.length ≠ 2 then .raised "siftfast: array needs 2 dimensions" else do
  let h ← extract_int cv (.int (arr.shape.getD 0 0))
  if im.height ≠ h then .raised "siftfast: array rows do not match height" else do
  let w ← extract_int cv (.int (arr.shape.getD 1 0))
  if im.width ≠ w then .raised "siftfast: array columns do not match width" else do
  let first ← arr.getitem2 0 0
  if isIntDtype arr.dtype && int_convertible cv first then do
    let buf ← fillImage im arr (convInt cv) im.vimage
    .ok { im with vimage := buf }
  else if number_convertible cv first then do
    let buf ← fillImage im arr (extract_float cv) im.vimage
    .ok { im with vimage := buf }
  else if number_convertible cv first then do
    let buf ← fillImage im arr (convDouble cv) im.vimage
    .ok { im with vimage := buf }
  else .raised "siftfast: array not in correct format"

/-- The effect of `vimage.resize(n)` for the `int` expression `n`: converted to
`size_t`, so that a negative `n` exceeds `max_size()`; new elements are
`0.0f`, surplus elements are dropped. -/
def resize (zero : F) (v : List F) (n : Int) : Outcome (List F) :=
  if n < 0 then .raised "std::length_error"
  else .ok (v.take n.toNat ++ List.replicate (n.toNat - v.length) zero)

/-- The constructor `PyImage(object oimage)` on a numpy array. -/
def PyImage.initObj (cv : Conv F D) (oimage : NdArrayObj D) : Outcome (PyImage F) :=
  if oimage.shape.length ≠ 2 then .raised "siftfast: assertion failed: len(shape)==2" else do
  let width ← extract_int cv (.int (oimage.shape.getD 1 0))
  let height ← extract_int cv (.int (oimage.shape.getD 0 0))
  let stride := andNot3 (toInt32 (width + 3))
  let vimage ← resize cv.zero [] (toInt32 (height * stride))
  PyImage.SetData cv { width := width, height := height, stride := stride, vimage := vimage }
    oimage

/-! ## Keypoint records and output tables -/

/-- Modelled from the spec: the record `struct KeypointSt` of `siftfast.h`,
which is not among the sources: column, row, orientation, scale, pyramid
index, pyramid-relative scale and the 128-element descriptor. The `next`
field is the tail of the list that holds the record. -/
structure KeypointSt (F : Type) where
  row : F
  col : F
  scale : F
  ori : F
  imageindex : Int
  fpyramidscale : F
  descrip : Fin 128 → F

/-- The pointer type `Keypoint`: the list of records reached through `next`;
`NULL` is `[]`. -/
abbrev Keypoint (F : Type) := List (KeypointSt F)

/-- Modelled from the spec: the record `struct ImageSt` of `siftfast.h`,
filled at lines 235-239. -/
structure ImageSt (F : Type) where
  rows : Int
  cols : Int
  pixels : List F
  stride : Int

/-- A numpy array of `float`: its shape and its elements in row-major order. -/
structure NdArray (F : Type) where
  dims : List Nat
  data : List F
  deriving Repr, DecidableEq

/-- The call `PyArray_SimpleNew(2, dims, PyArray_FLOAT)` for the `int`
dimensions `dims`. It returns `NULL` (`none`) for a negative dimension and
when no memory is left; `mem shape` is `none` in the second case and else
gives what the memory of each element holds, since the elements are not
initialised. -/
def PyArray_SimpleNew (mem : List Nat → Option (Nat → F)) (dims : List Int) :
    Option (NdArray F) :=
  if dims.any (fun d => decide (d < 0)) then none
  else
    match mem (dims.map Int.toNat) with
    | none => none
    | some junk =>
      some { dims := dims.map Int.toNat,
             data := (List.range (dims.map Int.toNat).prod).map junk }

/-- The expression `numeric::array(boost::python::list()).astype("f4")`:
`numpy.array` of a flat list of `n` numbers is the 1-dimensional array of
shape `(n,)`, `astype` keeps the shape, and the list here is empty. -/
def emptyListArray : NdArray F :=
  { dims := [([] : List F).length], data := [] }

/-- The element `a[r][c]` of a 2-dimensional array with `ncols` columns. -/
def NdArray.at2 (a : NdArray F) (ncols r c : Nat) : Option F := a.data[ncols * r + c]?

/-! ## Forward conversion (lines 195-231) -/

/-- The counting loop of lines 199-204 on the `int numkeys`. -/
def countKeys : Keypoint F → Int → Int
  | [], numkeys => numkeys
  | _ :: next, numkeys => countKeys next (toInt32 (numkeys + 1))

/-- The filling loop of lines 214-228 on the buffers `pframes` and `pdesc`,
with the `int index`: the indices `128*index+j` and `4*index+c` are computed
in `int`. -/
def fillKeypoints : Keypoint F → Int → List F × List F → Outcome (List F × List F)
  | [], _, s => .ok s
  | key :: next, index, (pframes, pdesc) => do
    let pdesc ← forLoopP 128 (fun j hj pd =>
      writeAt pd (toInt32 (toInt32 (128 * index) + j)) (key.descrip ⟨j, hj⟩)) 0 pdesc
    let pframes ← writeAt pframes (toInt32 (toInt32 (4 * index) + 0)) key.col
    let pframes ← writeAt pframes (toInt32 (toInt32 (4 * index) + 1)) key.row
    let pframes ← writeAt pframes (toInt32 (toInt32 (4 * index) + 2)) key.ori
    let pframes ← writeAt pframes (toInt32 (toInt32 (4 * index) + 3)) key.scale
    fillKeypoints next (toInt32 (index + 1)) (pframes, pdesc)

/-- The function `ReturnKeypoints(keypts)`; the result is the pair
`(frames, descriptors)` of the returned tuple. `PyArray_DATA` of a `NULL`
array (lines 208 and 212) is undefined behaviour. -/
def ReturnKeypoints (mem : List Nat → Option (Nat → F)) (keypts : Keypoint F) :
    Outcome (NdArray F × NdArray F) :=
  match keypts with
  | [] => .ok (emptyListArray, emptyListArray)
  | _ :: _ =>
    let numkeys := countKeys keypts 0
    match PyArray_SimpleNew mem [numkeys, 4] with
    | none => .undefined "PyArray_DATA of a null array"
    | some pyframes =>
      match PyArray_SimpleNew mem [numkeys, 128] with
      | none => .undefined "PyArray_DATA of a null array"
      | some pydesc =>
        match fillKeypoints keypts 0 (pyframes.data, pydesc.data) with
        | .ok (pframes, pdesc) =>
          .ok ({ pyframes with data := pframes }, { pydesc with data := pdesc })
        | .raised m => .raised m
        | .undefined u => .undefined u

/-! ## Top-level requests (lines 233-324) -/

/-- Modelled from the spec: the engine operations declared in `siftfast.h`
and implemented outside these sources, with `sizeof(KeypointSt)`.
`GetKeypointDescriptors` works in place; its result here is the list as it
stands after the call. -/
structure Engine (F : Type) where
  sizeofKeypointSt : Nat
  GetKeypoints : ImageSt F → Keypoint F
  GetKeypointFrames : ImageSt F → Keypoint F
  GetKeypointDescriptors : ImageSt F → Keypoint F → Keypoint F

/-- Calls made so far to the release operations. -/
structure World where
  destroyAllImages : Nat
  freeKeypoints : Nat
  alignedFree : Nat
  deriving Repr, DecidableEq

/-- Lines 235-239. -/
def toImageSt (im : PyImage F) : ImageSt F :=
  { rows := im.height, cols := im.width, pixels := im.vimage, stride := im.stride }

/-- The function `PyGetKeypoints(PyImage&)`: when `ReturnKeypoints` does not
return, lines 243-244 are not reached. -/
def PyGetKeypoints (E : Engine F) (mem : List Nat → Option (Nat → F)) (im : PyImage F)
    (w : World) : Outcome (NdArray F × NdArray F) × World :=
  let keypts := E.GetKeypoints (toImageSt im)
  match ReturnKeypoints mem keypts with
  | .ok o =>
    let w := { w with freeKeypoints := w.freeKeypoints + 1 }
    let w := { w with destroyAllImages := w.destroyAllImages + 1 }
    (.ok o, w)
  | .raised m => (.raised m, w)
  | .undefined u => (.undefined u, w)

/-- The filling loop of lines 268-280, with the `int index`. -/
def fillFrames (cv : Conv F D) : Keypoint F → Int → List F → Outcome (List F)
  | [], _, pframes => .ok pframes
  | key :: next, index, pframes => do
    let pframes ← writeAt pframes (toInt32 (toInt32 (6 * index) + 0)) key.col
    let pframes ← writeAt pframes (toInt32 (toInt32 (6 * index) + 1)) key.row
    let pframes ← writeAt pframes (toInt32 (toInt32 (6 * index) + 2)) key.ori
    let pframes ← writeAt pframes (toInt32 (toInt32 (6 * index) + 3)) key.scale
    let pframes ← writeAt pframes (toInt32 (toInt32 (6 * index) + 4))
      (cv.intToFloat key.imageindex)
    let pframes ← writeAt pframes (toInt32 (toInt32 (6 * index) + 5)) key.fpyramidscale
    fillFrames cv next (toInt32 (index + 1)) pframes

/-- The function `PyGetKeypointFrames(PyImage&)`. -/
def PyGetKeypointFrames (cv : Conv F D) (E : Engine F) (mem : List Nat → Option (Nat → F))
    (im : PyImage F) (w : World) : Outcome (NdArray F) × World :=
  let keypts := E.GetKeypointFrames (toImageSt im)
  let numkeys := countKeys keypts 0
  match PyArray_SimpleNew mem [numkeys, 6] with
  | none => (.undefined "PyArray_DATA of a null array", w)
  | some pyframes =>
    match fillFrames cv keypts 0 pyframes.data with
    | .ok pframes =>
      let w := { w with freeKeypoints := w.freeKeypoints + 1 }
      let w := { w with destroyAllImages := w.destroyAllImages + 1 }
      (.ok { pyframes with data := pframes }, w)
    | .raised m => (.raised m, w)
    | .undefined u => (.undefined u, w)

/-- The expression `oframe[c]` on a row of the frame table. -/
def rowItem (oframe : List (PyObject D)) (c : Nat) : Outcome (PyObject D) :=
  match oframe[c]? with
  | some o => .ok o
  | none => .raised "IndexError"

/-- The body of the loop of lines 297-311 for row `i`. `p` is the result of
`py_aligned_malloc(sizeof(KeypointSt),16)` and `garbage` the content of the
descriptor of the fresh record. Each right-hand side is evaluated before the
store through `keypt`, so a failing conversion of `oframe[0]` throws before a
null `keypt` is dereferenced. -/
def buildKeypoint (cv : Conv F D) (p : Option Int) (garbage : Fin 128 → F)
    (oframe : List (PyObject D)) (i : Nat) (vkeypoints : List (Keypoint F)) :
    Outcome (List (Keypoint F)) := do
  let col ← (rowItem oframe 0).bind (extract_float cv)
  match p with
  | none => .undefined "store through a null Keypoint"
  | some _ => do
    let row ← (rowItem oframe 1).bind (extract_float cv)
    let ori ← (rowItem oframe 2).bind (extract_float cv)
    let scale ← (rowItem oframe 3).bind (extract_float cv)
    let imageindex ← (rowItem oframe 4).bind (extract_int cv)
    let fpyramidscale ← (rowItem oframe 5).bind (extract_float cv)
    let keypt : KeypointSt F :=
      { row := row, col := col, scale := scale, ori := ori, imageindex := imageindex,
        fpyramidscale := fpyramidscale, descrip := garbage }
    let next : Keypoint F := if i > 0 then vkeypoints.getD (i - 1) [] else []
    .ok (vkeypoints.set i (keypt :: next))

/-- The loop of lines 296-311: `malloc i` is the underlying `malloc` at the
allocation of row `i`, `garbage i` the descriptor content of that block. -/
def buildKeypoints (cv : Conv F D) (E : Engine F) (malloc : Nat → Nat → Option Nat)
    (garbage : Nat → Fin 128 → F) (oframes : List (List (PyObject D))) :
    Outcome (List (Keypoint F)) :=
  forLoop oframes.length (fun i vkeypoints =>
    buildKeypoint cv (py_aligned_malloc (malloc i) E.sizeofKeypointSt 16) (garbage i)
      (oframes.getD i []) i vkeypoints) 0 (List.replicate oframes.length [])

/-- The function `PyGetKeypointDescriptors(PyImage&, object oframes)`: an
exception, or a run that does not return, leaves the function before the
statements that follow it. -/
def PyGetKeypointDescriptors (cv : Conv F D) (E : Engine F) (mem : List Nat → Option (Nat → F))
    (malloc : Nat → Nat → Option Nat) (garbage : Nat → Fin 128 → F)
    (im : PyImage F) (oframes : List (List (PyObject D))) (w : World) :
    Outcome (NdArray F × NdArray F) × World :=
  match buildKeypoints cv E malloc garbage oframes with
  | .raised m => (.raised m, w)
  | .undefined u => (.undefined u, w)
  | .ok vkeypoints =>
    if vkeypoints.length > 0 then
      let back := vkeypoints.getLastD []
      let keypts := E.GetKeypointDescriptors (toImageSt im) back
      match ReturnKeypoints mem keypts with
      | .ok o =>
        let w := { w with alignedFree := w.alignedFree + vkeypoints.length }
        (.ok o, { w with destroyAllImages := w.destroyAllImages + 1 })
      | .raised m => (.raised m, w)
      | .undefined u => (.undefined u, w)
    else
      match ReturnKeypoints mem [] with
      | .ok o => (.ok o, { w with destroyAllImages := w.destroyAllImages + 1 })
      | .raised m => (.raised m, w)
      | .undefined u => (.undefined u, w)

/-- The overload `PyGetKeypoints(numeric::array)`. -/
def PyGetKeypointsArray (cv : Conv F D) (E : Engine F) (mem : List Nat → Option (Nat → F))
    (oarray : NdArrayObj D) (w : World) : Outcome (NdArray F × NdArray F) × World :=
  match PyImage.initObj cv oarray with
  | .ok pimage => PyGetKeypoints E mem pimage w
  | .raised m => (.raised m, w)
  | .undefined u => (.undefined u, w)

/-- The overload `PyGetKeypointFrames(numeric::array)`. -/
def PyGetKeypointFramesArray (cv : Conv F D) (E : Engine F) (mem : List Nat → Option (Nat → F))
    (oarray : NdArrayObj D) (w : World) : Outcome (NdArray F) × World :=
  match PyImage.initObj cv oarray with
  | .ok pimage => PyGetKeypointFrames cv E mem pimage w
  | .raised m => (.raised m, w)
  | .undefined u => (.undefined u, w)

/-- The overload `PyGetKeypointDescriptors(numeric::array, object)`. -/
def PyGetKeypointDescriptorsArray (cv : Conv F D) (E : Engine F)
    (mem : List Nat → Option (Nat → F)) (malloc : Nat → Nat → Option Nat) (garbage : Nat → Fin 128 → F)
    (oarray : NdArrayObj D) (oframes : List (List (PyObject D))) (w : World) :
    Outcome (NdArray F × NdArray F) × World :=
  match PyImage.initObj cv oarray with
  | .ok pimage => PyGetKeypointDescriptors cv E mem malloc garbage pimage oframes w
  | .raised m => (.raised m, w)
  | .undefined u => (.undefined u, w)

/-! ## Pickling (lines 186-193 and 436-443) -/

/-- A Python value passed to the constructor of `Image`. -/
inductive PyValue (F D : Type) where
  | scalar (o : PyObject D)
  | floats (a : NdArray F)
  | array (a : NdArrayObj D)

/-- The function `toPyArrayN(pvalues, N)`: a 1-dimensional array of `N` floats. -/
def toPyArrayN (pvalues : List F) : NdArray F :=
  { dims := [pvalues.length], data := pvalues }

/-- An array of `float` seen as an array object: shape, dtype `float32` and
elements. -/
def NdArray.toObj (cv : Conv F D) (a : NdArray F) : NdArrayObj D :=
  { shape := a.dims, dtype := "float32",
    item := fun i j => .float (cv.widen (a.data.getD (a.dims.getD 1 0 * i + j) cv.zero)) }

/-- The function `Image_pickle_suite::getinitargs`. -/
def getinitargs (im : PyImage F) : List (PyValue F D) :=
  [.scalar (.int im.width), .scalar (.int im.height), .scalar (.int im.stride),
   .floats (toPyArrayN im.vimage)]

/-- The constructors registered for `Image` at lines 436-438, `init<int,int>`
and `init<object>`, as Boost.Python calls them on an argument tuple: an
overload is tried only when the number of arguments is its arity, and with no
matching overload the call raises `ArgumentError`. -/
def Image_new (cv : Conv F D) (args : List (PyValue F D)) : Outcome (PyImage F) :=
  match args with
  | [.scalar a, .scalar b] =>
    if int_convertible cv a && int_convertible cv b then do
      let width ← extract_int cv a
      let height ← extract_int cv b
      PyImage.init cv.zero width height
    else .raised "Boost.Python.ArgumentError"
  | [.array o] => PyImage.initObj cv o
  | [.scalar _] => .raised "AttributeError: shape"
  | [.floats a] => PyImage.initObj cv (NdArray.toObj cv a)
  | _ => .raised "Boost.Python.ArgumentError"

/-! ## Definitions used in the statements and proofs -/

/-- The record that lines 300-305 build from a row of the frame table. -/
def rowRecord (cv : Conv F D) (garbage : Fin 128 → F) (oframe : List (PyObject D)) :
    Outcome (KeypointSt F) := do
  let col ← (rowItem oframe 0).bind (extract_float cv)
  let row ← (rowItem oframe 1).bind (extract_float cv)
  let ori ← (rowItem oframe 2).bind (extract_float cv)
  let scale ← (rowItem oframe 3).bind (extract_float cv)
  let imageindex ← (rowItem oframe 4).bind (extract_int cv)
  let fpyramidscale ← (rowItem oframe 5).bind (extract_float cv)
  .ok { row := row, col := col, scale := scale, ori := ori, imageindex := imageindex,
        fpyramidscale := fpyramidscale, descrip := garbage }

/-- The four fields that `ReturnKeypoints` writes to the frame table. -/
def KeypointSt.geometry (k : KeypointSt F) : F × F × F × F := (k.col, k.row, k.ori, k.scale)

/-- A row of a 6-column frame table: six cells, each accepted by the conversion
that lines 300-305 apply to it. -/
def frameRowOk (cv : Conv F D) (oframe : List (PyObject D)) : Bool :=
  match oframe with
  | [a, b, c, d, e, f] =>
    number_convertible cv a && number_convertible cv b && number_convertible cv c &&
    number_convertible cv d && (extract_int cv e).isOk && number_convertible cv f
  | _ => false

/-- Invariant of the loop of lines 297-311 after `i` rows: entry `m < i` of
`vkeypoints` heads the records of rows `m, m-1, .., 0`. -/
def BuildInv (cv : Conv F D) (garbage : Nat → Fin 128 → F) (oframes : List (List (PyObject D)))
    (i : Nat) (vk : List (Keypoint F)) : Prop :=
  vk.length = oframes.length ∧
  ∀ m, m < i → ∃ l, vk[m]? = some l ∧ l.length = m + 1 ∧
    ∀ t, t ≤ m → ∃ k, l[t]? = some k ∧
      rowRecord cv (garbage (m - t)) (oframes.getD (m - t) []) = .ok k

/-- Invariant of the inner loop of `fillImage` on row `i` after `j` columns. -/
def RowInv (arr : NdArrayObj D) (conv : PyObject D → Outcome F) (S i : Nat) (buf0 : List F)
    (j : Nat) (buf : List F) : Prop :=
  buf.length = buf0.length ∧
  (∀ c, c < j → ∃ v, conv (arr.item i c) = .ok v ∧ buf[i * S + c]? = some v) ∧
  (∀ p, (∀ c, c < j → p ≠ i * S + c) → buf[p]? = buf0[p]?)

/-- Invariant of the outer loop of `fillImage` after `i` rows. -/
def ImageInv (arr : NdArrayObj D) (conv : PyObject D → Outcome F) (S W : Nat) (buf0 : List F)
    (i : Nat) (buf : List F) : Prop :=
  buf.length = buf0.length ∧
  (∀ r c, r < i → c < W → ∃ v, conv (arr.item r c) = .ok v ∧ buf[r * S + c]? = some v) ∧
  (∀ p, (∀ r c, r < i → c < W → p ≠ r * S + c) → buf[p]? = buf0[p]?)

/-- The test of lines 153-156 that selects the integer branch of `SetData`. -/
def integerTyped (cv : Conv F D) (arr : NdArrayObj D) : Bool :=
  isIntDtype arr.dtype && int_convertible cv (arr.item 0 0)

/-- What both constructors establish: the stride is at least the width, or
else (when `width+3` left the range of `int`) the buffer is empty. -/
def PyImage.built (im : PyImage F) : Prop := im.width ≤ im.stride ∨ im.vimage = []

/-! ## Concrete instances -/

/-- A numeric platform for examples: a number is an exact multiple of `1/255`,
stored as that multiple, for `float` and `double` alike. -/
def cvZ : Conv Int Int :=
  { zero := 0, narrow := id, intToFloat := fun n => 255 * n, scale255 := fun n => n,
    ofInt := fun n => some (255 * n), trunc := fun d => some (Int.tdiv d 255), widen := id }

/-- An engine for examples: detection finds nothing, and descriptor
computation sets every descriptor entry to `1`. -/
def engZ : Engine Int :=
  { sizeofKeypointSt := 544,
    GetKeypoints := fun _ => [],
    GetKeypointFrames := fun _ => [],
    GetKeypointDescriptors := fun _ l => l.map (fun k => { k with descrip := fun _ => 1 }) }

/-- Memory for examples: every array is allocated and its elements hold `0`. -/
def memZ : List Nat → Option (Nat → Int) := fun _ => some (fun _ => 0)

/-- An image of width 2 and height 1, as `PyImage(2, 1)` builds it. -/
def imZ : PyImage Int := { width := 2, height := 1, stride := 4, vimage := [0, 0, 0, 0] }

/-- A source array of one row and two columns of dtype `uint8`. -/
def arrZ : NdArrayObj Int :=
  { shape := [1, 2], dtype := "uint8", item := fun _ j => .int (j + 7) }

/-- The state before any release operation was called. -/
def w0 : World := { destroyAllImages := 0, freeKeypoints := 0, alignedFree := 0 }

/-- A keypoint record. -/
def keyZ : KeypointSt Int :=
  { row := 1, col := 2, scale := 3, ori := 4, imageindex := 0, fpyramidscale := 1,
    descrip := fun j => j.val }

/-- A keypoint list of `2^24 + 1` records. -/
def bigKeysZ : Keypoint Int := List.replicate 16777217 keyZ

/-- A frame table of two rows and six columns. -/
def framesZ : List (List (PyObject Int)) :=
  [[.float 10, .float 11, .float 12, .float 13, .float 0, .float 15],
   [.float 20, .float 21, .float 22, .float 23, .float 255, .float 25]]

/-- A frame table of `2^24 + 1` rows and six columns. -/
def bigFramesZ : List (List (PyObject Int)) :=
  List.replicate 16777217 [.float 10, .float 11, .float 12, .float 13, .float 0, .float 15]

/-- A frame table whose first cell is a string. -/
def badFramesZ : List (List (PyObject Int)) :=
  [[.str "x", .float 11, .float 12, .float 13, .float 0, .float 15]]

/-- The image that `PyImage(65536, 65537)` builds: `height*stride` is
`2^32 + 65536` and wraps to `65536`, one row of the 65537. -/
def bigImZ : PyImage Int :=
  { width := 65536, height := 65537, stride := 65536, vimage := List.replicate 65536 0 }

/-- A source array of 65537 rows and 65536 columns of dtype `uint8`, all `0`. -/
def bigArrZ : NdArrayObj Int :=
  { shape := [65537, 65536], dtype := "uint8", item := fun _ _ => .int 0 }

/-! ## Lemmas on machine integers -/

theorem toInt32_of_range (x : Int) (h1 : -2 ^ 31 ≤ x) (h2 : x < 2 ^ 31) : toInt32 x = x := by
  unfold toInt32; omega

/-- An `int` index `c*index+k` that stays in range is the natural number it
denotes. -/
theorem toInt32_index (c index k : Nat) (h : c * index + k < 2 ^ 31) :
    toInt32 (toInt32 ((c : Int) * (index : Int)) + (k : Int)) = ((c * index + k : Nat) : Int) := by
  have h1 : ((c : Int) * (index : Int)) = ((c * index : Nat) : Int) := by push_cast; rfl
  have h2 : toInt32 ((c * index : Nat) : Int) = ((c * index : Nat) : Int) :=
    toInt32_of_range _ (by omega) (by omega)
  rw [h1, h2, toInt32_of_range _ (by omega) (by omega)]
  push_cast; rfl

/-! ## Lemmas on the loops -/

theorem bind_eq (α β : Type) (x : Outcome α) (f : α → Outcome β) : (x >>= f) = x.bind f := rfl

theorem bind_ok_iff {α β : Type} (x : Outcome α) (f : α → Outcome β) (b : β) :
    x.bind f = .ok b ↔ ∃ a, x = .ok a ∧ f a = .ok b := by
  cases x <;> simp [Outcome.bind]

theorem forLoopP_unfold {σ : Type} (n : Nat) (body : (i : Nat) → i < n → σ → Outcome σ)
    (i : Nat) (s : σ) :
    forLoopP n body i s =
      if h : i < n then (body i h s).bind (fun s' => forLoopP n body (i + 1) s') else .ok s := by
  rw [forLoopP]
  split
  · rename_i h
    cases body i h s <;> rfl
  · rfl

/-- Total correctness of a loop whose body succeeds under the invariant. -/
theorem forLoopP_total {σ : Type} (n : Nat) (body : (i : Nat) → i < n → σ → Outcome σ)
    (Inv : Nat → σ → Prop)
    (hstep : ∀ i (hi : i < n) s, Inv i s → ∃ s', body i hi s = .ok s' ∧ Inv (i + 1) s')
    (k i : Nat) (s : σ) (hk : n - i = k) (hi : i ≤ n) (h0 : Inv i s) :
    ∃ r, forLoopP n body i s = .ok r ∧ Inv n r := by
  induction k generalizing i s with
  | zero =>
    have e : i = n := by omega
    subst e
    exact ⟨s, by rw [forLoopP_unfold]; simp, h0⟩
  | succ k ih =>
    have hlt : i < n := by omega
    obtain ⟨s', hb, hinv⟩ := hstep i hlt s h0
    obtain ⟨r, hr, hinv2⟩ := ih (i + 1) s' (by omega) (by omega) hinv
    exact ⟨r, by rw [forLoopP_unfold, dif_pos hlt, hb]; exact hr, hinv2⟩

theorem writeAt_nat (buf : List F) (k : Nat) (v : F) (h : k < buf.length) :
    writeAt buf (k : Int) v = .ok (buf.set k v) := by
  unfold writeAt
  rw [if_pos ⟨by omega, by omega⟩, Int.toNat_ofNat]

theorem writeAt_neg (buf : List F) (k : Int) (v : F) (h : k < 0) :
    writeAt buf k v = .undefined "store outside the buffer" := by
  unfold writeAt
  rw [if_neg (by omega)]

theorem countKeys_eq (l : Keypoint F) (n : Nat) (h : n + l.length < 2 ^ 31) :
    countKeys l (n : Int) = ((n + l.length : Nat) : Int) := by
  induction l generalizing n with
  | nil => rfl
  | cons k next ih =>
    have h' : n + 1 + next.length < 2 ^ 31 := by
      rw [List.length_cons] at h; omega
    have e : toInt32 ((n : Int) + 1) = ((n + 1 : Nat) : Int) := by
      rw [toInt32_of_range _ (by omega) (by omega)]; push_cast; rfl
    rw [countKeys, e, ih (n + 1) h', List.length_cons]
    have e2 : n + 1 + next.length = n + (next.length + 1) := by omega
    rw [e2]

/-- The copy of the 128 descriptor values of a record to `pdesc[128*index ..]`
(lines 218-219), while `128*index+127` stays in the range of `int`. -/
theorem descLoop_spec (key : KeypointSt F) (index : Nat) (pd : List F)
    (hr : 128 * index + 128 ≤ 2 ^ 31) (hl : 128 * index + 128 ≤ pd.length) :
    ∃ pd', forLoopP 128 (fun j hj b =>
        writeAt b (toInt32 (toInt32 (128 * (index : Int)) + j)) (key.descrip ⟨j, hj⟩)) 0 pd =
        .ok pd' ∧
      pd'.length = pd.length ∧
      (∀ j : Fin 128, pd'[128 * index + j.val]? = some (key.descrip j)) ∧
      (∀ p, (p < 128 * index ∨ 128 * index + 128 ≤ p) → pd'[p]? = pd[p]?) := by
  have h := forLoopP_total 128 (fun j hj b =>
      writeAt b (toInt32 (toInt32 (128 * (index : Int)) + j)) (key.descrip ⟨j, hj⟩))
    (fun j b => b.length = pd.length ∧
      (∀ c (hc : c < 128), c < j → b[128 * index + c]? = some (key.descrip ⟨c, hc⟩)) ∧
      (∀ p, (p < 128 * index ∨ 128 * index + j ≤ p) → b[p]? = pd[p]?))
    (by
      intro j hj b ⟨hlen, hv, hu⟩
      have e := toInt32_index 128 index j (by omega)
      simp only [Nat.cast_ofNat] at e
      refine ⟨b.set (128 * index + j) (key.descrip ⟨j, hj⟩), ?_, ?_, ?_, ?_⟩
      · show writeAt b (toInt32 (toInt32 (128 * (index : Int)) + j)) (key.descrip ⟨j, hj⟩) = _
        rw [e]; exact writeAt_nat _ _ _ (by omega)
      · simpa using hlen
      · intro c hc hcj
        by_cases ec : c = j
        · subst ec; exact List.getElem?_set_self (by omega)
        · rw [List.getElem?_set_ne (by omega)]; exact hv c hc (by omega)
      · intro p hp
        rw [List.getElem?_set_ne (by omega)]; exact hu p (by omega))
    128 0 pd rfl (Nat.zero_le _) ⟨rfl, fun c _ hc => absurd hc (Nat.not_lt_zero c), fun _ _ => rfl⟩
  obtain ⟨pd', hrun, hlen, hv, hu⟩ := h
  exact ⟨pd', hrun, hlen, fun j => hv j.val j.isLt j.isLt, fun p hp => hu p (by omega)⟩

/-- One round of the filling loop of `ReturnKeypoints` while the indices stay
in the range of `int` and inside the buffers. -/
theorem fillKeypoints_step (key : KeypointSt F) (next : Keypoint F) (index : Nat)
    (pf pd : List F) (hr : 128 * index + 128 ≤ 2 ^ 31)
    (hf : 4 * index + 4 ≤ pf.length) (hd : 128 * index + 128 ≤ pd.length) :
    ∃ pd', pd'.length = pd.length ∧
      (∀ j : Fin 128, pd'[128 * index + j.val]? = some (key.descrip j)) ∧
      (∀ p, (p < 128 * index ∨ 128 * index + 128 ≤ p) → pd'[p]? = pd[p]?) ∧
      fillKeypoints (key :: next) (index : Int) (pf, pd) =
        fillKeypoints next ((index + 1 : Nat) : Int)
          ((((pf.set (4 * index) key.col).set (4 * index + 1) key.row).set
              (4 * index + 2) key.ori).set (4 * index + 3) key.scale, pd') := by
  obtain ⟨pd', hrun, hlen, hv, hu⟩ := descLoop_spec key index pd hr hd
  refine ⟨pd', hlen, hv, hu, ?_⟩
  have e0 := toInt32_index 4 index 0 (by omega)
  have e1 := toInt32_index 4 index 1 (by omega)
  have e2 := toInt32_index 4 index 2 (by omega)
  have e3 := toInt32_index 4 index 3 (by omega)
  have ei : toInt32 ((index : Int) + 1) = ((index + 1 : Nat) : Int) := by
    rw [toInt32_of_range _ (by omega) (by omega)]; push_cast; rfl
  simp only [Nat.cast_ofNat, Nat.cast_zero, Nat.cast_one, Nat.add_zero] at e0 e1 e2 e3
  rw [fillKeypoints]
  simp only [bind_eq, hrun, Outcome.bind, e0, e1, e2, e3, ei]
  rw [writeAt_nat _ _ _ (by omega)]
  simp only []
  rw [writeAt_nat _ _ _ (by simp only [List.length_set]; omega)]
  simp only []
  rw [writeAt_nat _ _ _ (by simp only [List.length_set]; omega)]
  simp only []
  rw [writeAt_nat _ _ _ (by simp only [List.length_set]; omega)]

/-- What the filling loop of `ReturnKeypoints` leaves in the two buffers while
every index stays in the range of `int`. -/
theorem fillKeypoints_spec (l : Keypoint F) (index : Nat) (pf pd : List F)
    (hr : 128 * (index + l.length) ≤ 2 ^ 31)
    (hf : 4 * (index + l.length) ≤ pf.length) (hd : 128 * (index + l.length) ≤ pd.length) :
    ∃ pf' pd', fillKeypoints l (index : Int) (pf, pd) = .ok (pf', pd') ∧
    pf'.length = pf.length ∧ pd'.length = pd.length ∧
    (∀ p, p < 4 * index → pf'[p]? = pf[p]?) ∧
    (∀ p, p < 128 * index → pd'[p]? = pd[p]?) ∧
    (∀ k (hk : k < l.length),
      pf'[4 * (index + k) + 0]? = some l[k].col ∧
      pf'[4 * (index + k) + 1]? = some l[k].row ∧
      pf'[4 * (index + k) + 2]? = some l[k].ori ∧
      pf'[4 * (index + k) + 3]? = some l[k].scale ∧
      ∀ j : Fin 128, pd'[128 * (index + k) + j.val]? = some (l[k].descrip j)) := by
  induction l generalizing index pf pd with
  | nil =>
    exact ⟨pf, pd, rfl, rfl, rfl, fun _ _ => rfl, fun _ _ => rfl,
      fun k hk => absurd hk (Nat.not_lt_zero k)⟩
  | cons key next ih =>
    simp only [List.length_cons] at hr hf hd
    obtain ⟨pd1, c1, c2, c3, hstep⟩ := fillKeypoints_step key next index pf pd (by omega)
      (by omega) (by omega)
    have hl : ((((pf.set (4 * index) key.col).set (4 * index + 1) key.row).set
        (4 * index + 2) key.ori).set (4 * index + 3) key.scale).length = pf.length := by
      simp only [List.length_set]
    obtain ⟨pf', pd', hrun, i1, i2, i3, i4, i5⟩ := ih (index + 1)
      ((((pf.set (4 * index) key.col).set (4 * index + 1) key.row).set
        (4 * index + 2) key.ori).set (4 * index + 3) key.scale) pd1
      (by omega) (by rw [hl]; omega) (by rw [c1]; omega)
    rw [hl] at i1
    refine ⟨pf', pd', by rw [hstep]; exact hrun, i1, by rw [i2, c1], ?_, ?_, ?_⟩
    · intro p hp
      rw [i3 p (by omega)]
      rw [List.getElem?_set_ne (by omega), List.getElem?_set_ne (by omega),
        List.getElem?_set_ne (by omega), List.getElem?_set_ne (by omega)]
    · intro p hp
      rw [i4 p (by omega)]
      exact c3 p (Or.inl (by omega))
    · intro k hk
      cases k with
      | zero =>
        simp only [Nat.add_zero, List.getElem_cons_zero]
        refine ⟨?_, ?_, ?_, ?_, ?_⟩
        · rw [i3 _ (by omega)]
          rw [List.getElem?_set_ne (by omega), List.getElem?_set_ne (by omega),
            List.getElem?_set_ne (by omega)]
          exact List.getElem?_set_self (by omega)
        · rw [i3 _ (by omega)]
          rw [List.getElem?_set_ne (by omega), List.getElem?_set_ne (by omega)]
          exact List.getElem?_set_self (by simp only [List.length_set]; omega)
        · rw [i3 _ (by omega)]
          rw [List.getElem?_set_ne (by omega)]
          exact List.getElem?_set_self (by simp only [List.length_set]; omega)
        · rw [i3 _ (by omega)]
          exact List.getElem?_set_self (by simp only [List.length_set]; omega)
        · intro j
          rw [i4 _ (by omega)]
          exact c2 j
      | succ k =>
        have hk2 : k < next.length := by simpa using hk
        obtain ⟨a, b, c, d, f⟩ := i5 k hk2
        have e1 : index + (k + 1) = index + 1 + k := by omega
        simp only [List.getElem_cons_succ, e1]
        exact ⟨a, b, c, d, f⟩

/-- From record number `2^24` on, `128*index` leaves the range of `int`: the
first descriptor store of that record is at a negative index. -/
theorem fillKeypoints_overflow (l : Keypoint F) (index : Nat) (pf pd : List F)
    (hi : index ≤ 2 ^ 24) (hlen : 2 ^ 24 < index + l.length)
    (hf : 4 * 2 ^ 24 ≤ pf.length) (hd : 128 * 2 ^ 24 ≤ pd.length) :
    fillKeypoints l (index : Int) (pf, pd) = .undefined "store outside the buffer" := by
  induction l generalizing index pf pd with
  | nil => simp only [List.length_nil] at hlen; omega
  | cons key next ih =>
    by_cases he : index = 2 ^ 24
    · subst he
      have e : toInt32 (toInt32 (128 * ((2 ^ 24 : Nat) : Int)) + ((0 : Nat) : Int)) = -2 ^ 31 := by
        decide
      rw [fillKeypoints]
      simp only [bind_eq]
      rw [forLoopP_unfold, dif_pos (by decide), e, writeAt_neg _ _ _ (by decide)]
      rfl
    · simp only [List.length_cons] at hlen
      obtain ⟨pd1, c1, _, _, hstep⟩ := fillKeypoints_step key next index pf pd (by omega)
        (by omega) (by omega)
      rw [hstep]
      exact ih (index + 1) _ pd1 (by omega) (by omega)
        (by simp only [List.length_set]; exact hf) (by rw [c1]; exact hd)

theorem PyArray_SimpleNew_ok (mem : List Nat → Option (Nat → F)) (N c : Nat) (junk : Nat → F)
    (hm : mem [N, c] = some junk) :
    PyArray_SimpleNew mem [(N : Int), (c : Int)] =
      some { dims := [N, c], data := (List.range (N * c)).map junk } := by
  unfold PyArray_SimpleNew
  have h0 : ([(N : Int), (c : Int)].any fun d => decide (d < 0)) = false := by
    simp
  simp [h0, hm]

theorem countKeys_zero (l : Keypoint F) (h : l.length < 2 ^ 31) :
    countKeys l 0 = (l.length : Int) := by
  have e := countKeys_eq l 0 (by omega)
  simp only [Nat.cast_zero, Nat.zero_add] at e
  exact e

/-- The tables returned for a list that is not null and has at most `2^24`
records, when both arrays are allocated. -/
theorem ReturnKeypoints_in_range (mem : List Nat → Option (Nat → F)) (keypts : Keypoint F)
    (hne : keypts ≠ []) (hN : keypts.length ≤ 2 ^ 24) (j1 j2 : Nat → F)
    (hm1 : mem [keypts.length, 4] = some j1) (hm2 : mem [keypts.length, 128] = some j2) :
    ∃ frames desc, ReturnKeypoints mem keypts = .ok (frames, desc) ∧
    frames.dims = [keypts.length, 4] ∧ desc.dims = [keypts.length, 128] ∧
    frames.data.length = keypts.length * 4 ∧ desc.data.length = keypts.length * 128 ∧
    ∀ k (hk : k < keypts.length),
      frames.at2 4 k 0 = some keypts[k].col ∧
      frames.at2 4 k 1 = some keypts[k].row ∧
      frames.at2 4 k 2 = some keypts[k].ori ∧
      frames.at2 4 k 3 = some keypts[k].scale ∧
      ∀ j : Fin 128, desc.at2 128 k j.val = some (keypts[k].descrip j) := by
  have hc := countKeys_zero keypts (by omega)
  have a1 := PyArray_SimpleNew_ok mem keypts.length 4 j1 hm1
  have a2 := PyArray_SimpleNew_ok mem keypts.length 128 j2 hm2
  simp only [Nat.cast_ofNat] at a1 a2
  obtain ⟨pf', pd', hrun, h1, h2, _, _, h5⟩ := fillKeypoints_spec keypts 0
    ((List.range (keypts.length * 4)).map j1) ((List.range (keypts.length * 128)).map j2)
    (by omega) (by simp; omega) (by simp; omega)
  simp only [Nat.cast_zero, List.length_map, List.length_range, Nat.zero_add] at hrun h1 h2 h5
  cases keypts with
  | nil => exact absurd rfl hne
  | cons key next =>
    refine ⟨{ dims := [(key :: next).length, 4], data := pf' },
      { dims := [(key :: next).length, 128], data := pd' }, ?_, rfl, rfl, h1, h2, h5⟩
    unfold ReturnKeypoints
    simp only [hc, a1, a2, hrun]

/-- For a list of more than `2^24` records (and fewer than `2^31`, so that
`numkeys` is right), `ReturnKeypoints` stores outside the descriptor buffer. -/
theorem ReturnKeypoints_overflow (mem : List Nat → Option (Nat → F)) (keypts : Keypoint F)
    (h1 : 2 ^ 24 < keypts.length) (h2 : keypts.length < 2 ^ 31) (j1 j2 : Nat → F)
    (hm1 : mem [keypts.length, 4] = some j1) (hm2 : mem [keypts.length, 128] = some j2) :
    ReturnKeypoints mem keypts = .undefined "store outside the buffer" := by
  have hc := countKeys_zero keypts h2
  have a1 := PyArray_SimpleNew_ok mem keypts.length 4 j1 hm1
  have a2 := PyArray_SimpleNew_ok mem keypts.length 128 j2 hm2
  simp only [Nat.cast_ofNat] at a1 a2
  have hrun := fillKeypoints_overflow keypts 0
    ((List.range (keypts.length * 4)).map j1) ((List.range (keypts.length * 128)).map j2)
    (by omega) (by omega) (by simp; omega) (by simp; omega)
  simp only [Nat.cast_zero] at hrun
  cases keypts with
  | nil => simp only [List.length_nil] at h1; omega
  | cons key next =>
    unfold ReturnKeypoints
    simp only [hc, a1, a2, hrun]

theorem forLoop_unfold {σ : Type} (n : Nat) (body : Nat → σ → Outcome σ) (i : Nat) (s : σ) :
    forLoop n body i s =
      if i < n then (body i s).bind (fun s' => forLoop n body (i + 1) s') else .ok s := by
  rw [forLoop]
  split
  · cases body i s <;> rfl
  · rfl

/-- Total correctness of a loop whose body succeeds under the invariant. -/
theorem forLoop_total {σ : Type} (n : Nat) (body : Nat → σ → Outcome σ) (Inv : Nat → σ → Prop)
    (hstep : ∀ i s, i < n → Inv i s → ∃ s', body i s = .ok s' ∧ Inv (i + 1) s')
    (k i : Nat) (s : σ) (hk : n - i = k) (hi : i ≤ n) (h0 : Inv i s) :
    ∃ r, forLoop n body i s = .ok r ∧ Inv n r := by
  induction k generalizing i s with
  | zero =>
    have e : i = n := by omega
    subst e
    exact ⟨s, by rw [forLoop_unfold]; simp, h0⟩
  | succ k ih =>
    have hlt : i < n := by omega
    obtain ⟨s', hb, hinv⟩ := hstep i s hlt h0
    obtain ⟨r, hr, hinv2⟩ := ih (i + 1) s' (by omega) (by omega) hinv
    exact ⟨r, by rw [forLoop_unfold, if_pos hlt, hb]; exact hr, hinv2⟩

/-- Partial correctness of a loop: the invariant holds when it returns. -/
theorem forLoop_inv {σ : Type} (n : Nat) (body : Nat → σ → Outcome σ) (Inv : Nat → σ → Prop)
    (hstep : ∀ i s s', i < n → Inv i s → body i s = .ok s' → Inv (i + 1) s')
    (k i : Nat) (s r : σ) (hk : n - i = k) (hi : i ≤ n) (h0 : Inv i s)
    (hr : forLoop n body i s = .ok r) : Inv n r := by
  induction k generalizing i s with
  | zero =>
    have e : i = n := by omega
    subst e
    rw [forLoop_unfold] at hr
    simp only [Nat.lt_irrefl, if_false] at hr
    cases hr
    exact h0
  | succ k ih =>
    have hlt : i < n := by omega
    rw [forLoop_unfold, if_pos hlt] at hr
    cases hb : body i s with
    | ok s' =>
      rw [hb] at hr
      exact ih (i + 1) s' (by omega) (by omega) (hstep i s s' hlt h0 hb) hr
    | raised m => rw [hb] at hr; cases hr
    | undefined u => rw [hb] at hr; cases hr

theorem buildKeypoint_some (cv : Conv F D) (a : Int) (garbage : Fin 128 → F)
    (oframe : List (PyObject D)) (i : Nat) (vk : List (Keypoint F)) :
    buildKeypoint cv (some a) garbage oframe i vk =
      (rowRecord cv garbage oframe).bind (fun k =>
        .ok (vk.set i (k :: (if i > 0 then vk.getD (i - 1) [] else [])))) := by
  unfold buildKeypoint rowRecord
  simp only [bind_eq]
  generalize (rowItem oframe 0).bind (extract_float cv) = x0
  generalize (rowItem oframe 1).bind (extract_float cv) = x1
  generalize (rowItem oframe 2).bind (extract_float cv) = x2
  generalize (rowItem oframe 3).bind (extract_float cv) = x3
  generalize (rowItem oframe 4).bind (extract_int cv) = x4
  generalize (rowItem oframe 5).bind (extract_float cv) = x5
  cases x0 <;> try rfl
  cases x1 <;> try rfl
  cases x2 <;> try rfl
  cases x3 <;> try rfl
  cases x4 <;> try rfl
  cases x5 <;> rfl

theorem rowRecord_fields (cv : Conv F D) (garbage : Fin 128 → F) (oframe : List (PyObject D))
    (k : KeypointSt F) (h : rowRecord cv garbage oframe = .ok k) :
    (rowItem oframe 0).bind (extract_float cv) = .ok k.col ∧
    (rowItem oframe 1).bind (extract_float cv) = .ok k.row ∧
    (rowItem oframe 2).bind (extract_float cv) = .ok k.ori ∧
    (rowItem oframe 3).bind (extract_float cv) = .ok k.scale := by
  unfold rowRecord at h
  simp only [bind_eq] at h
  generalize (rowItem oframe 0).bind (extract_float cv) = x0 at h ⊢
  generalize (rowItem oframe 1).bind (extract_float cv) = x1 at h ⊢
  generalize (rowItem oframe 2).bind (extract_float cv) = x2 at h ⊢
  generalize (rowItem oframe 3).bind (extract_float cv) = x3 at h ⊢
  generalize (rowItem oframe 4).bind (extract_int cv) = x4 at h
  generalize (rowItem oframe 5).bind (extract_float cv) = x5 at h
  cases x0 <;> simp [Outcome.bind] at h
  cases x1 <;> simp at h
  cases x2 <;> simp at h
  cases x3 <;> simp at h
  cases x4 <;> simp at h
  cases x5 <;> simp at h
  subst h
  exact ⟨rfl, rfl, rfl, rfl⟩

theorem extract_float_ok (cv : Conv F D) (o : PyObject D) (h : number_convertible cv o = true) :
    ∃ v, extract_float cv o = .ok v := by
  unfold extract_float
  rw [if_pos h]
  cases o with
  | str s => simp [number_convertible] at h
  | int n =>
    simp only [number_convertible, Option.isSome_iff_exists] at h
    obtain ⟨d, hd⟩ := h
    exact ⟨cv.narrow d, by rw [hd]⟩
  | float d => exact ⟨cv.narrow d, rfl⟩
  | other => simp [number_convertible, PyNumber_Float] at h

theorem isOk_iff {α : Type} (x : Outcome α) : x.isOk = true ↔ ∃ a, x = .ok a := by
  cases x <;> simp [Outcome.isOk]

theorem rowRecord_ok (cv : Conv F D) (garbage : Fin 128 → F) (oframe : List (PyObject D))
    (h : frameRowOk cv oframe = true) : ∃ k, rowRecord cv garbage oframe = .ok k := by
  unfold frameRowOk at h
  split at h
  · rename_i a b c d e f
    simp only [Bool.and_eq_true] at h
    obtain ⟨⟨⟨⟨⟨ha, hb⟩, hc⟩, hd⟩, he⟩, hf⟩ := h
    obtain ⟨va, ea⟩ := extract_float_ok cv a ha
    obtain ⟨vb, eb⟩ := extract_float_ok cv b hb
    obtain ⟨vc, ec⟩ := extract_float_ok cv c hc
    obtain ⟨vd, ed⟩ := extract_float_ok cv d hd
    obtain ⟨ve, ee⟩ := (isOk_iff _).1 he
    obtain ⟨vf, ef⟩ := extract_float_ok cv f hf
    refine ⟨{ row := vb, col := va, scale := vd, ori := vc, imageindex := ve,
              fpyramidscale := vf, descrip := garbage }, ?_⟩
    simp only [rowRecord, bind_eq, rowItem, List.getElem?_cons_zero, List.getElem?_cons_succ,
      Outcome.bind, ea, eb, ec, ed, ee, ef]
  · cases h

theorem buildKeypoints_spec (cv : Conv F D) (E : Engine F) (malloc : Nat → Nat → Option Nat)
    (garbage : Nat → Fin 128 → F) (oframes : List (List (PyObject D)))
    (hrows : ∀ oframe ∈ oframes, frameRowOk cv oframe = true)
    (hmalloc : ∀ i, i < oframes.length →
      (malloc i ((E.sizeofKeypointSt + 16) % 2 ^ 64)).isSome = true) :
    ∃ vk, buildKeypoints cv E malloc garbage oframes = .ok vk ∧
      BuildInv cv garbage oframes oframes.length vk := by
  unfold buildKeypoints
  apply forLoop_total oframes.length _ (BuildInv cv garbage oframes) _ oframes.length 0 _ rfl
    (Nat.zero_le _)
  · exact ⟨by simp, fun m hm => absurd hm (Nat.not_lt_zero m)⟩
  · intro i vk hi ⟨hlen, hinv⟩
    obtain ⟨p, hp⟩ := Option.isSome_iff_exists.1 (hmalloc i hi)
    have hrow : frameRowOk cv (oframes.getD i []) = true := by
      apply hrows
      rw [List.getD_eq_getElem?_getD, List.getElem?_eq_getElem hi]
      exact List.getElem_mem _
    obtain ⟨k, hk⟩ := rowRecord_ok cv (garbage i) _ hrow
    have hpm : py_aligned_malloc (malloc i) E.sizeofKeypointSt 16 =
        some ((p : Int) + alignedOff p 16) := by
      unfold py_aligned_malloc; rw [hp]
    rw [hpm, buildKeypoint_some, hk]
    refine ⟨_, rfl, by simpa using hlen, ?_⟩
    intro m hm
    by_cases hmi : m = i
    · subst hmi
      refine ⟨_, List.getElem?_set_self (by omega), ?_, ?_⟩
      · by_cases h0 : m > 0
        · obtain ⟨l, hl, hll, _⟩ := hinv (m - 1) (by omega)
          simp only [h0, if_true, List.getD_eq_getElem?_getD, hl, Option.getD_some,
            List.length_cons, hll]
          omega
        · simp [h0]; omega
      · intro t ht
        cases t with
        | zero => exact ⟨k, by simp, by simpa using hk⟩
        | succ t =>
          have h0 : m > 0 := by omega
          obtain ⟨l, hl, _, hlt⟩ := hinv (m - 1) (by omega)
          obtain ⟨k2, hk2, hr2⟩ := hlt t (by omega)
          refine ⟨k2, ?_, ?_⟩
          · simp only [h0, if_true, List.getD_eq_getElem?_getD, hl, Option.getD_some,
              List.getElem?_cons_succ]
            exact hk2
          · have e : m - (t + 1) = m - 1 - t := by omega
            rw [e]; exact hr2
    · obtain ⟨l, hl, hll, hlt⟩ := hinv m (by omega)
      exact ⟨l, by rw [List.getElem?_set_ne (by omega)]; exact hl, hll, hlt⟩

theorem geometry_getElem (a b : Keypoint F)
    (h : a.map KeypointSt.geometry = b.map KeypointSt.geometry) (r : Nat) (ka kb : KeypointSt F)
    (ha : a[r]? = some ka) (hb : b[r]? = some kb) :
    ka.col = kb.col ∧ ka.row = kb.row ∧ ka.ori = kb.ori ∧ ka.scale = kb.scale := by
  have e : (a.map KeypointSt.geometry)[r]? = (b.map KeypointSt.geometry)[r]? := by rw [h]
  simp only [List.getElem?_map, ha, hb, Option.map_some', Option.some.injEq,
    KeypointSt.geometry, Prod.mk.injEq] at e
  exact e

/-! ## Lemmas on `SetData` -/

theorem fillStep_ok (arr : NdArrayObj D) (conv : PyObject D → Outcome F) (S i j : Nat)
    (buf buf' : List F) (hr : i * S + j < 2 ^ 31)
    (h : fillStep arr conv (S : Int) i j buf = .ok buf') :
    ∃ v, conv (arr.item i j) = .ok v ∧ i * S + j < buf.length ∧ buf' = buf.set (i * S + j) v := by
  unfold fillStep at h
  simp only [bind_eq] at h
  have hg : arr.getitem2 i j = .ok (arr.item i j) ∨ ∃ m, arr.getitem2 i j = .raised m := by
    unfold NdArrayObj.getitem2
    split
    · split
      · exact Or.inl rfl
      · exact Or.inr ⟨_, rfl⟩
    · exact Or.inr ⟨_, rfl⟩
  rcases hg with hg | ⟨m, hg⟩
  · rw [hg] at h
    simp only [Outcome.bind] at h
    cases hc : conv (arr.item i j) with
    | ok v =>
      rw [hc] at h
      simp only [writeAt] at h
      rw [toInt32_index i S j hr] at h
      split at h
      · rename_i hr
        simp only [Outcome.ok.injEq, Int.toNat_ofNat] at h
        exact ⟨v, rfl, by omega, h.symm⟩
      · cases h
    | raised m => rw [hc] at h; cases h
    | undefined u => rw [hc] at h; cases h
  · rw [hg] at h; cases h

theorem index_ne (S i j i' j' : Nat) (hj : j < S) (hj' : j' < S) (h : i ≠ i' ∨ j ≠ j') :
    i * S + j ≠ i' * S + j' := by
  intro e
  have h1 : (i * S + j) / S = i := by
    rw [Nat.add_comm, Nat.add_mul_div_right _ _ (by omega), Nat.div_eq_of_lt hj]; omega
  have h2 : (i' * S + j') / S = i' := by
    rw [Nat.add_comm, Nat.add_mul_div_right _ _ (by omega), Nat.div_eq_of_lt hj']; omega
  have hi : i = i' := by rw [← h1, ← h2, e]
  subst hi
  rcases h with h | h
  · exact h rfl
  · omega

theorem fillRow_spec (arr : NdArrayObj D) (conv : PyObject D → Outcome F) (S W i : Nat)
    (buf0 buf : List F) (hr : i * S + W ≤ 2 ^ 31)
    (h : forLoop W (fun j b => fillStep arr conv (S : Int) i j b) 0 buf0 = .ok buf) :
    RowInv arr conv S i buf0 W buf := by
  apply forLoop_inv W _ (RowInv arr conv S i buf0) _ W 0 buf0 buf rfl (Nat.zero_le _) _ h
  · intro j b b' hj ⟨hl, hw, hu⟩ hb
    obtain ⟨v, hv, hlt, hset⟩ := fillStep_ok arr conv S i j b b' (by omega) hb
    subst hset
    refine ⟨by simpa using hl, ?_, ?_⟩
    · intro c hc
      by_cases e : c = j
      · subst e
        exact ⟨v, hv, List.getElem?_set_self hlt⟩
      · obtain ⟨v', hv', hb'⟩ := hw c (by omega)
        exact ⟨v', hv', by rw [List.getElem?_set_ne (by omega)]; exact hb'⟩
    · intro p hp
      rw [List.getElem?_set_ne (Ne.symm (hp j (by omega)))]
      exact hu p (fun c hc => hp c (by omega))
  · exact ⟨rfl, fun c hc => absurd hc (Nat.not_lt_zero c), fun p _ => rfl⟩

theorem fillImage_spec (im : PyImage F) (arr : NdArrayObj D) (conv : PyObject D → Outcome F)
    (H W S : Nat) (hH : im.height = H) (hW : im.width = W) (hS : im.stride = S) (hWS : W ≤ S)
    (hsz : H * S ≤ 2 ^ 31)
    (buf0 buf : List F) (h : fillImage im arr conv buf0 = .ok buf) :
    ImageInv arr conv S W buf0 H buf := by
  unfold fillImage at h
  rw [hH, hW, hS] at h
  simp only [Int.toNat_ofNat] at h
  apply forLoop_inv H _ (ImageInv arr conv S W buf0) _ H 0 buf0 buf rfl (Nat.zero_le _) _ h
  · intro i b b' hi ⟨hl, hw, hu⟩ hb
    have hrow : i * S + W ≤ 2 ^ 31 := by
      have h1 := Nat.mul_le_mul_right S (show i + 1 ≤ H by omega)
      rw [Nat.succ_mul] at h1
      omega
    obtain ⟨rl, rw_, ru⟩ := fillRow_spec arr conv S W i b b' hrow hb
    refine ⟨by rw [rl, hl], ?_, ?_⟩
    · intro r c hr hc
      by_cases e : r = i
      · subst e
        exact rw_ c hc
      · obtain ⟨v, hv, hb2⟩ := hw r c (by omega) hc
        refine ⟨v, hv, ?_⟩
        rw [ru (r * S + c) (fun c' hc' => index_ne S r c i c' (by omega) (by omega) (Or.inl e))]
        exact hb2
    · intro p hp
      rw [ru p (fun c hc => hp i c (by omega) hc)]
      exact hu p (fun r c hr hc => hp r c (by omega) hc)
  · exact ⟨rfl, fun r c hr => absurd hr (Nat.not_lt_zero r), fun p _ => rfl⟩

theorem extract_int_shape (cv : Conv F D) (n : Nat) (h : Int)
    (e : extract_int cv (.int (n : Int)) = .ok h) : h = n := by
  unfold extract_int at e
  simp only [int_convertible, PyNumber_Int, Option.isSome_some, if_true] at e
  split at e
  · simp only [Outcome.ok.injEq] at e; exact e.symm
  · cases e

theorem getitem2_ok (arr : NdArrayObj D) (i j : Nat) (o : PyObject D)
    (h : arr.getitem2 i j = .ok o) : o = arr.item i j := by
  unfold NdArrayObj.getitem2 at h
  split at h
  · split at h
    · simp only [Outcome.ok.injEq] at h; exact h.symm
    · cases h
  · cases h

theorem getitem2_pos (arr : NdArrayObj D) (o : PyObject D) (h : arr.getitem2 0 0 = .ok o) :
    0 < arr.shape.getD 0 0 ∧ 0 < arr.shape.getD 1 0 := by
  unfold NdArrayObj.getitem2 at h
  split at h
  · rename_i hgt wd hs
    split at h
    · rename_i hc
      rw [hs]
      simpa using hc
    · cases h
  · cases h

/-- What an accepted `SetData` does: the buffer that a branch filled. -/
theorem SetData_ok (cv : Conv F D) (im im' : PyImage F) (arr : NdArrayObj D)
    (hok : PyImage.SetData cv im arr = .ok im') :
    im.height = (arr.shape.getD 0 0 : Nat) ∧ im.width = (arr.shape.getD 1 0 : Nat) ∧
    0 < arr.shape.getD 0 0 ∧ 0 < arr.shape.getD 1 0 ∧
    ∃ buf, im' = { im with vimage := buf } ∧
      ((integerTyped cv arr = true ∧ fillImage im arr (convInt cv) im.vimage = .ok buf) ∨
       (integerTyped cv arr = false ∧ fillImage im arr (extract_float cv) im.vimage = .ok buf)) := by
  unfold PyImage.SetData at hok
  split at hok
  · cases hok
  simp only [bind_eq, bind_ok_iff] at hok
  obtain ⟨h, eh, hok⟩ := hok
  have hh := extract_int_shape cv _ h eh
  split at hok
  · cases hok
  rename_i hhe
  simp only [bind_eq, bind_ok_iff] at hok
  obtain ⟨w, ew, hok⟩ := hok
  have hw := extract_int_shape cv _ w ew
  split at hok
  · cases hok
  rename_i hwe
  simp only [bind_eq, bind_ok_iff] at hok
  obtain ⟨first, ef, hok⟩ := hok
  have hf := getitem2_ok arr 0 0 first ef
  subst hf
  have hpos := getitem2_pos arr (arr.item 0 0) ef
  refine ⟨by rw [← hh]; exact not_not.1 hhe, by rw [← hw]; exact not_not.1 hwe, hpos.1, hpos.2, ?_⟩
  split at hok
  · rename_i hb
    simp only [bind_eq, bind_ok_iff] at hok
    obtain ⟨buf, hbuf, hok⟩ := hok
    simp only [Outcome.ok.injEq] at hok
    exact ⟨buf, hok.symm, Or.inl ⟨hb, hbuf⟩⟩
  · rename_i hb
    have hb' : integerTyped cv arr = false := by
      simpa [integerTyped] using hb
    split at hok
    · simp only [bind_eq, bind_ok_iff] at hok
      obtain ⟨buf, hbuf, hok⟩ := hok
      simp only [Outcome.ok.injEq] at hok
      exact ⟨buf, hok.symm, Or.inr ⟨hb', hbuf⟩⟩
    · cases hok

/-! ## Lemmas on the aligned allocator and on the image constructor -/

theorem land_mask (u : Nat) (hu : u < 2 ^ 32) : u &&& 0xFFFFFFFC = u - u % 4 := by
  have h4 : (u &&& 0xFFFFFFFC) / 4 = u / 4 := by
    have e : (u &&& 0xFFFFFFFC) / 4 = (u &&& 0xFFFFFFFC) / 2 / 2 := by
      rw [Nat.div_div_eq_div_mul]
    rw [e, Nat.and_div_two, Nat.and_div_two]
    have c : (0xFFFFFFFC / 2 / 2 : Nat) = 2 ^ 30 - 1 := by norm_num
    rw [c, Nat.and_pow_two_sub_one_eq_mod]
    omega
  have h0 : (u &&& 0xFFFFFFFC) % 4 = 0 := by
    have a0 : ¬ ((u &&& 0xFFFFFFFC) % 2 = 1) := by
      rw [Nat.and_mod_two_eq_one]; omega
    have a1 : ¬ ((u &&& 0xFFFFFFFC) / 2 % 2 = 1) := by
      rw [Nat.and_div_two, Nat.and_mod_two_eq_one]; omega
    omega
  omega

theorem andNot3_eq (y : Int) (h0 : 0 ≤ y) (h1 : y < 2 ^ 31) : andNot3 y = y - y % 4 := by
  unfold andNot3 toUInt32
  have e : (y % 2 ^ 32).toNat = y.toNat := by omega
  rw [e, land_mask y.toNat (by omega)]
  unfold toInt32
  omega

theorem alignedOff_eq (p align : Nat) (h : align = 8 ∨ align = 16 ∨ align = 32) :
    alignedOff p align = 4 + align - ((p + 4) % align : Nat) := by
  unfold alignedOff toInt32 toSizeT
  rcases h with h | h | h <;> subst h <;> simp only [] <;> omega

/-- For the alignments 8, 16 and 32 and a base address that is a multiple of 8
(as `malloc` returns on the usual platforms) the offset stays inside the
extra `align` bytes. -/
theorem alignedOff_inside (p align : Nat) (h : align = 8 ∨ align = 16 ∨ align = 32)
    (hp : p % 8 = 0) : 4 ≤ alignedOff p align ∧ alignedOff p align ≤ align := by
  rw [alignedOff_eq p align h]
  rcases h with h | h | h <;> subst h <;> omega

/-- Within the range of `int` the constructor builds the padded buffer: the
stride is the least multiple of 4 that is at least the width and the buffer
has `height * stride` elements. -/
theorem PyImage_init_in_range (zero : F) (W H : Int) (hW : 0 < W) (hW2 : W + 3 < 2 ^ 31)
    (hH : 0 < H) (hHS : H * (W + 3 - (W + 3) % 4) < 2 ^ 31) :
    ∃ im, PyImage.init zero W H = .ok im ∧ im.width = W ∧ im.height = H ∧
      im.stride % 4 = 0 ∧ W ≤ im.stride ∧ im.stride < W + 4 ∧
      (im.vimage.length : Int) = H * im.stride := by
  have hs : andNot3 (toInt32 (W + 3)) = W + 3 - (W + 3) % 4 := by
    rw [toInt32_of_range _ (by omega) hW2, andNot3_eq _ (by omega) hW2]
  have hnn : 0 ≤ H * (W + 3 - (W + 3) % 4) := Int.mul_nonneg (by omega) (by omega)
  have hn : toInt32 (H * (W + 3 - (W + 3) % 4)) = H * (W + 3 - (W + 3) % 4) :=
    toInt32_of_range _ (by omega) hHS
  refine ⟨{ width := W, height := H, stride := W + 3 - (W + 3) % 4,
            vimage := List.replicate (H * (W + 3 - (W + 3) % 4)).toNat zero }, ?_, rfl, rfl,
          ?_, ?_, ?_, ?_⟩
  · unfold PyImage.init
    have c : ¬ ¬ (W > 0 ∧ H > 0) := not_not.2 ⟨hW, hH⟩
    simp only [c, if_false, hs, hn]
    rw [if_neg (by omega)]
  · show (W + 3 - (W + 3) % 4) % 4 = 0
    omega
  · show W ≤ W + 3 - (W + 3) % 4
    omega
  · show W + 3 - (W + 3) % 4 < W + 4
    omega
  · show ((List.replicate (H * (W + 3 - (W + 3) % 4)).toNat zero).length : Int) =
      H * (W + 3 - (W + 3) % 4)
    rw [List.length_replicate]
    exact Int.toNat_of_nonneg hnn

/-- On an empty buffer the double loop of `SetData` cannot complete when the
source has at least one element. -/
theorem fillImage_empty (im : PyImage F) (arr : NdArrayObj D) (conv : PyObject D → Outcome F)
    (H W : Nat) (hH : im.height = H) (hW : im.width = W) (h0 : 0 < H) (h1 : 0 < W)
    (buf : List F) : fillImage im arr conv [] ≠ .ok buf := by
  intro h
  have hb : ∀ b', fillStep arr conv im.stride 0 0 ([] : List F) ≠ .ok b' := by
    intro b' hb
    unfold fillStep at hb
    simp only [bind_eq, bind_ok_iff] at hb
    obtain ⟨o, _, v, _, hw⟩ := hb
    unfold writeAt at hw
    split at hw
    · rename_i hc
      simp only [List.length_nil, Nat.cast_zero] at hc
      omega
    · cases hw
  have hrow : ∀ b', forLoop W (fun j b => fillStep arr conv im.stride 0 j b) 0 ([] : List F) ≠
      .ok b' := by
    intro b' hr
    rw [forLoop_unfold, if_pos h1, bind_ok_iff] at hr
    obtain ⟨a, ha, _⟩ := hr
    exact hb a ha
  have himg : forLoop H (fun i b => forLoop W (fun j b => fillStep arr conv im.stride i j b) 0 b)
      0 ([] : List F) = .ok buf := by
    unfold fillImage at h
    rw [hH, hW] at h
    simp only [Int.toNat_ofNat] at h
    exact h
  rw [forLoop_unfold, if_pos h0, bind_ok_iff] at himg
  obtain ⟨a, ha, _⟩ := himg
  exact hrow a ha

theorem stride_or_empty (W H : Int) (h0 : 0 ≤ W) (hr : W < 2 ^ 31) :
    W ≤ andNot3 (toInt32 (W + 3)) ∨ toInt32 (H * andNot3 (toInt32 (W + 3))) ≤ 0 := by
  by_cases hW : W + 3 < 2 ^ 31
  · left
    rw [toInt32_of_range _ (by omega) hW, andNot3_eq _ (by omega) hW]
    omega
  · right
    have e1 : toInt32 (W + 3) = W + 3 - 2 ^ 32 := by unfold toInt32; omega
    have e2 : andNot3 (toInt32 (W + 3)) = -2 ^ 31 := by
      rw [e1]
      unfold andNot3 toUInt32
      have e : ((W + 3 - 2 ^ 32) % 2 ^ 32).toNat = (W + 3).toNat := by omega
      rw [e, land_mask _ (by omega)]
      unfold toInt32
      omega
    rw [e2]
    unfold toInt32
    omega

/-- The constructor `PyImage(int, int)` establishes `built`. -/
theorem PyImage_init_built (zero : F) (W H : Int) (hr : W < 2 ^ 31) (im : PyImage F)
    (h : PyImage.init zero W H = .ok im) : im.built := by
  unfold PyImage.init at h
  split at h
  · cases h
  rename_i hc
  have hpos : W > 0 ∧ H > 0 := not_not.1 hc
  simp only [] at h
  split at h
  · cases h
  rename_i hn
  simp only [Outcome.ok.injEq] at h
  subst h
  rcases stride_or_empty W H (by omega) hr with hs | hs
  · exact Or.inl hs
  · right
    have e : toInt32 (H * andNot3 (toInt32 (W + 3))) = 0 := by omega
    show List.replicate (toInt32 (H * andNot3 (toInt32 (W + 3)))).toNat zero = []
    rw [e]; rfl

theorem extract_int_range (cv : Conv F D) (o : PyObject D) (n : Int)
    (h : extract_int cv o = .ok n) : -2 ^ 31 ≤ n ∧ n < 2 ^ 31 := by
  unfold extract_int at h
  split at h
  · split at h
    · split at h
      · rename_i hr
        simp only [Outcome.ok.injEq] at h
        rw [← h]; exact hr
      · cases h
    · cases h
  · cases h

/-- The constructor `PyImage(object)` establishes `built`. -/
theorem PyImage_initObj_built (cv : Conv F D) (oimage : NdArrayObj D) (im : PyImage F)
    (h : PyImage.initObj cv oimage = .ok im) : im.built := by
  unfold PyImage.initObj at h
  split at h
  · cases h
  simp only [bind_eq, bind_ok_iff] at h
  obtain ⟨width, hw, height, hh, vimage, hv, hset⟩ := h
  have hw0 := extract_int_shape cv _ width hw
  have hwr := extract_int_range cv _ width hw
  obtain ⟨_, _, hH0, hW0, buf, him, hbr⟩ := SetData_ok cv _ im oimage hset
  have hfill : ∃ conv : PyObject D → Outcome F,
      fillImage { width := width, height := height, stride := andNot3 (toInt32 (width + 3)),
                  vimage := vimage } oimage conv vimage = .ok buf := by
    rcases hbr with ⟨_, hf⟩ | ⟨_, hf⟩
    · exact ⟨_, hf⟩
    · exact ⟨_, hf⟩
  obtain ⟨conv, hf⟩ := hfill
  subst him
  rcases stride_or_empty width height (by omega) hwr.2 with hs | hs
  · exact Or.inl hs
  · exfalso
    unfold resize at hv
    split at hv
    · cases hv
    rename_i hn
    simp only [Outcome.ok.injEq] at hv
    have e : toInt32 (height * andNot3 (toInt32 (width + 3))) = 0 := by omega
    rw [e] at hv
    simp at hv
    subst hv
    have hh0 := extract_int_shape cv _ height hh
    exact fillImage_empty _ oimage conv _ _ hh0 hw0 hH0 hW0 buf hf

/-! ## Lemmas on the reverse conversion -/

/-- The list that the loop of lines 297-311 leaves at `vkeypoints.back()`:
the records of rows `K-1, .., 0`. -/
theorem buildKeypoints_back (cv : Conv F D) (E : Engine F) (malloc : Nat → Nat → Option Nat)
    (garbage : Nat → Fin 128 → F) (oframes : List (List (PyObject D)))
    (hrows : ∀ oframe ∈ oframes, frameRowOk cv oframe = true)
    (hmalloc : ∀ i, i < oframes.length →
      (malloc i ((E.sizeofKeypointSt + 16) % 2 ^ 64)).isSome = true)
    (hK : 0 < oframes.length) :
    ∃ vk l, buildKeypoints cv E malloc garbage oframes = .ok vk ∧
      vk.length = oframes.length ∧ vk.getLastD [] = l ∧ l.length = oframes.length ∧
      ∀ t, t < oframes.length → ∃ k, l[t]? = some k ∧
        rowRecord cv (garbage (oframes.length - 1 - t))
          (oframes.getD (oframes.length - 1 - t) []) = .ok k := by
  obtain ⟨vk, hvk, hlen, hinv⟩ := buildKeypoints_spec cv E malloc garbage oframes hrows hmalloc
  obtain ⟨l, hl, hll, hlt⟩ := hinv (oframes.length - 1) (by omega)
  refine ⟨vk, l, hvk, hlen, ?_, by omega, fun t ht => hlt t (by omega)⟩
  rw [List.getLastD_eq_getLast?, List.getLast?_eq_getElem?, hlen, hl]; rfl

/-- Reverse then forward conversion of a frame table of at most `2^24` rows:
row `r` of the returned frame table holds the geometry of input row `K-1-r`. -/
theorem reverse_then_forward_in_range (cv : Conv F D) (E : Engine F)
    (mem : List Nat → Option (Nat → F))
    (malloc : Nat → Nat → Option Nat) (garbage : Nat → Fin 128 → F) (im : PyImage F)
    (oframes : List (List (PyObject D))) (w : World)
    (hrows : ∀ oframe ∈ oframes, frameRowOk cv oframe = true)
    (hmalloc : ∀ i, i < oframes.length →
      (malloc i ((E.sizeofKeypointSt + 16) % 2 ^ 64)).isSome = true)
    (hengine : ∀ img l, (E.GetKeypointDescriptors img l).map KeypointSt.geometry =
      l.map KeypointSt.geometry)
    (hK : oframes.length ≤ 2 ^ 24) (j1 j2 : Nat → F)
    (hm1 : mem [oframes.length, 4] = some j1) (hm2 : mem [oframes.length, 128] = some j2) :
    ∃ frames desc w',
      PyGetKeypointDescriptors cv E mem malloc garbage im oframes w = (.ok (frames, desc), w') ∧
      frames.dims.head? = some oframes.length ∧
      frames.data.length = 4 * oframes.length ∧
      ∀ r, r < oframes.length → ∀ c, c < 4 → ∃ v,
        (rowItem (oframes.getD (oframes.length - 1 - r) []) c).bind (extract_float cv) = .ok v ∧
        frames.at2 4 r c = some v := by
  by_cases h0 : 0 < oframes.length
  · obtain ⟨vk, l, hvk, hlen, hback, hll, hlt⟩ :=
      buildKeypoints_back cv E malloc garbage oframes hrows hmalloc h0
    have hg := hengine (toImageSt im) l
    have hkl : (E.GetKeypointDescriptors (toImageSt im) l).length = oframes.length := by
      have := congrArg List.length hg
      simp only [List.length_map] at this
      omega
    have hne : E.GetKeypointDescriptors (toImageSt im) l ≠ [] := by
      intro h; rw [h] at hkl; simp at hkl; omega
    obtain ⟨frames, desc, hret, s1, _, s3, _, s5⟩ :=
      ReturnKeypoints_in_range mem (E.GetKeypointDescriptors (toImageSt im) l) hne
        (by omega) j1 j2 (by rw [hkl]; exact hm1) (by rw [hkl]; exact hm2)
    refine ⟨frames, desc,
      { destroyAllImages := w.destroyAllImages + 1, freeKeypoints := w.freeKeypoints,
        alignedFree := w.alignedFree + oframes.length }, ?_, ?_, ?_, ?_⟩
    · unfold PyGetKeypointDescriptors
      rw [hvk]
      simp only [hlen, h0, if_true, hback, hret]
    · rw [s1, hkl]; rfl
    · rw [s3, hkl]; omega
    · intro r hr c hc
      obtain ⟨k, hk, hrec⟩ := hlt r hr
      obtain ⟨f0, f1, f2, f3⟩ := rowRecord_fields cv _ _ k hrec
      obtain ⟨g0, g1, g2, g3, _⟩ := s5 r (by omega)
      obtain ⟨e0, e1, e2, e3⟩ := geometry_getElem _ _ hg r _ k
        (List.getElem?_eq_getElem (by omega)) hk
      interval_cases c
      · exact ⟨k.col, f0, by rw [g0, e0]⟩
      · exact ⟨k.row, f1, by rw [g1, e1]⟩
      · exact ⟨k.ori, f2, by rw [g2, e2]⟩
      · exact ⟨k.scale, f3, by rw [g3, e3]⟩
  · have hz : oframes = [] := List.length_eq_zero.1 (by omega)
    subst hz
    refine ⟨emptyListArray, emptyListArray,
      { w with destroyAllImages := w.destroyAllImages + 1 }, ?_, rfl, rfl, ?_⟩
    · unfold PyGetKeypointDescriptors buildKeypoints
      rw [forLoop_unfold]
      rfl
    · intro r hr; simp at hr

/-- A frame table of more than `2^24` rows: the forward conversion of the
records stores outside the descriptor buffer. -/
theorem PyGetKeypointDescriptors_overflow (cv : Conv F D) (E : Engine F)
    (mem : List Nat → Option (Nat → F))
    (malloc : Nat → Nat → Option Nat) (garbage : Nat → Fin 128 → F) (im : PyImage F)
    (oframes : List (List (PyObject D))) (w : World)
    (hrows : ∀ oframe ∈ oframes, frameRowOk cv oframe = true)
    (hmalloc : ∀ i, i < oframes.length →
      (malloc i ((E.sizeofKeypointSt + 16) % 2 ^ 64)).isSome = true)
    (hengine : ∀ img l, (E.GetKeypointDescriptors img l).map KeypointSt.geometry =
      l.map KeypointSt.geometry)
    (h1 : 2 ^ 24 < oframes.length) (h2 : oframes.length < 2 ^ 31) (j1 j2 : Nat → F)
    (hm1 : mem [oframes.length, 4] = some j1) (hm2 : mem [oframes.length, 128] = some j2) :
    PyGetKeypointDescriptors cv E mem malloc garbage im oframes w =
      (.undefined "store outside the buffer", w) := by
  have h0 : 0 < oframes.length := by omega
  obtain ⟨vk, l, hvk, hlen, hback, hll, _⟩ :=
    buildKeypoints_back cv E malloc garbage oframes hrows hmalloc h0
  have hg := hengine (toImageSt im) l
  have hkl : (E.GetKeypointDescriptors (toImageSt im) l).length = oframes.length := by
    have := congrArg List.length hg
    simp only [List.length_map] at this
    omega
  have hret := ReturnKeypoints_overflow mem (E.GetKeypointDescriptors (toImageSt im) l)
    (by omega) (by omega) j1 j2 (by rw [hkl]; exact hm1) (by rw [hkl]; exact hm2)
  unfold PyGetKeypointDescriptors
  rw [hvk]
  simp only [hlen, h0, if_true, hback, hret]

/-! ## The claims -/

/-- C1 on the failing input, a list of `2^24 + 1` records with both arrays
allocated: at record number `2^24` the `int` product `128*index` wraps to
`-2^31`, so `ReturnKeypoints` stores before the descriptor buffer and returns
no tables. -/
theorem ReturnKeypoints_index_overflow :
    bigKeysZ.length = 2 ^ 24 + 1 ∧
    toInt32 (128 * 2 ^ 24) = -2 ^ 31 ∧
    ReturnKeypoints memZ bigKeysZ = .undefined "store outside the buffer" := by
  have hl : bigKeysZ.length = 16777217 := List.length_replicate _ _
  refine ⟨hl, by decide, ?_⟩
  exact ReturnKeypoints_overflow memZ bigKeysZ (by rw [hl]; decide) (by rw [hl]; decide)
    (fun _ => 0) (fun _ => 0) rfl rfl

/-- C2 on the failing input, a frame table of `2^24 + 1` rows of six float
cells, with every allocation succeeding and an engine that keeps the
geometry: the records are built, and their forward conversion stores before
the descriptor buffer, so no frame table is returned. -/
theorem reverse_then_forward_overflow :
    bigFramesZ.length = 2 ^ 24 + 1 ∧
    PyGetKeypointDescriptors cvZ engZ memZ (fun _ _ => some 4096) (fun _ _ => 0) imZ
      bigFramesZ w0 = (.undefined "store outside the buffer", w0) := by
  have hl : bigFramesZ.length = 16777217 := List.length_replicate _ _
  refine ⟨hl, ?_⟩
  apply PyGetKeypointDescriptors_overflow cvZ engZ memZ (fun _ _ => some 4096) (fun _ _ => 0)
    imZ bigFramesZ w0 _ _ _ (by rw [hl]; decide) (by rw [hl]; decide) (fun _ => 0) (fun _ => 0)
    rfl rfl
  · intro oframe ho
    rw [List.eq_of_mem_replicate ho]
    decide
  · intro i _
    rfl
  · intro img l
    simp [engZ, List.map_map, Function.comp_def, KeypointSt.geometry]

/-- Counterexample to C3: on a frame table whose first cell is a string,
`PyGetKeypointDescriptors` raises and `DestroyAllImages` has not been called. -/
theorem release_skipped_when_cell_fails :
    (PyGetKeypointDescriptors cvZ engZ memZ (fun _ _ => some 4096) (fun _ _ => 0) imZ
      badFramesZ w0).1 = .raised "TypeError" ∧
    (PyGetKeypointDescriptors cvZ engZ memZ (fun _ _ => some 4096) (fun _ _ => 0) imZ
      badFramesZ w0).2.destroyAllImages ≠ w0.destroyAllImages + 1 := by
  have h : PyGetKeypointDescriptors cvZ engZ memZ (fun _ _ => some 4096) (fun _ _ => 0)
      imZ badFramesZ w0 = (.raised "TypeError", w0) := by
    simp [PyGetKeypointDescriptors, buildKeypoints, forLoop_unfold, buildKeypoint,
      py_aligned_malloc, rowItem, extract_float, number_convertible, Outcome.bind, bind_eq,
      badFramesZ]
  rw [h]
  exact ⟨rfl, by decide⟩

/-- C3 as amended: a top-level request (each of the three functions, on an
image or on an array) that returns normally has called `DestroyAllImages`
exactly once, whatever the number of keypoints; a `PyGetKeypointDescriptors`
that raises has not called `DestroyAllImages`. -/
theorem release_once_on_return (cv : Conv F D) (E : Engine F)
    (mem : List Nat → Option (Nat → F))
    (malloc : Nat → Nat → Option Nat) (garbage : Nat → Fin 128 → F) (im : PyImage F)
    (oarray : NdArrayObj D) (oframes : List (List (PyObject D))) (w : World) :
    ((PyGetKeypoints E mem im w).1.isOk = true →
      (PyGetKeypoints E mem im w).2.destroyAllImages = w.destroyAllImages + 1) ∧
    ((PyGetKeypointFrames cv E mem im w).1.isOk = true →
      (PyGetKeypointFrames cv E mem im w).2.destroyAllImages = w.destroyAllImages + 1) ∧
    ((PyGetKeypointDescriptors cv E mem malloc garbage im oframes w).1.isOk = true →
      (PyGetKeypointDescriptors cv E mem malloc garbage im oframes w).2.destroyAllImages =
        w.destroyAllImages + 1) ∧
    ((∃ m, (PyGetKeypointDescriptors cv E mem malloc garbage im oframes w).1 = .raised m) →
      (PyGetKeypointDescriptors cv E mem malloc garbage im oframes w).2.destroyAllImages =
        w.destroyAllImages) ∧
    ((PyGetKeypointsArray cv E mem oarray w).1.isOk = true →
      (PyGetKeypointsArray cv E mem oarray w).2.destroyAllImages = w.destroyAllImages + 1) ∧
    ((PyGetKeypointFramesArray cv E mem oarray w).1.isOk = true →
      (PyGetKeypointFramesArray cv E mem oarray w).2.destroyAllImages =
        w.destroyAllImages + 1) ∧
    ((PyGetKeypointDescriptorsArray cv E mem malloc garbage oarray oframes w).1.isOk = true →
      (PyGetKeypointDescriptorsArray cv E mem malloc garbage oarray oframes
        w).2.destroyAllImages = w.destroyAllImages + 1) := by
  have hk : ∀ im' : PyImage F, (PyGetKeypoints E mem im' w).1.isOk = true →
      (PyGetKeypoints E mem im' w).2.destroyAllImages = w.destroyAllImages + 1 := by
    intro im'
    unfold PyGetKeypoints
    simp only []
    cases ReturnKeypoints mem (E.GetKeypoints (toImageSt im')) <;> simp [Outcome.isOk]
  have hf : ∀ im' : PyImage F, (PyGetKeypointFrames cv E mem im' w).1.isOk = true →
      (PyGetKeypointFrames cv E mem im' w).2.destroyAllImages = w.destroyAllImages + 1 := by
    intro im'
    unfold PyGetKeypointFrames
    simp only []
    cases PyArray_SimpleNew mem [countKeys (E.GetKeypointFrames (toImageSt im')) 0, 6] with
    | none => simp [Outcome.isOk]
    | some pyframes =>
      simp only []
      cases fillFrames cv (E.GetKeypointFrames (toImageSt im')) 0 pyframes.data <;>
        simp [Outcome.isOk]
  have hd : ∀ im' : PyImage F,
      ((PyGetKeypointDescriptors cv E mem malloc garbage im' oframes w).1.isOk = true →
        (PyGetKeypointDescriptors cv E mem malloc garbage im' oframes w).2.destroyAllImages =
          w.destroyAllImages + 1) ∧
      ((∃ m, (PyGetKeypointDescriptors cv E mem malloc garbage im' oframes w).1 = .raised m) →
        (PyGetKeypointDescriptors cv E mem malloc garbage im' oframes w).2.destroyAllImages =
          w.destroyAllImages) := by
    intro im'
    unfold PyGetKeypointDescriptors
    cases buildKeypoints cv E malloc garbage oframes with
    | ok vk =>
      by_cases h : vk.length > 0
      · simp only [h, if_true]
        cases ReturnKeypoints mem (E.GetKeypointDescriptors (toImageSt im') (vk.getLastD [])) <;>
          simp [Outcome.isOk]
      · simp only [h, if_false]
        cases ReturnKeypoints mem ([] : Keypoint F) <;> simp [Outcome.isOk]
    | raised m => simp [Outcome.isOk]
    | undefined u => simp [Outcome.isOk]
  refine ⟨hk im, hf im, (hd im).1, (hd im).2, ?_, ?_, ?_⟩
  · unfold PyGetKeypointsArray
    cases PyImage.initObj cv oarray with
    | ok pimage => exact hk pimage
    | raised m => simp [Outcome.isOk]
    | undefined u => simp [Outcome.isOk]
  · unfold PyGetKeypointFramesArray
    cases PyImage.initObj cv oarray with
    | ok pimage => exact hf pimage
    | raised m => simp [Outcome.isOk]
    | undefined u => simp [Outcome.isOk]
  · unfold PyGetKeypointDescriptorsArray
    cases PyImage.initObj cv oarray with
    | ok pimage => exact (hd pimage).1
    | raised m => simp [Outcome.isOk]
    | undefined u => simp [Outcome.isOk]

/-- Witness of C3 as amended: a request on a frame table of two rows returns
normally and has called `DestroyAllImages` once. -/
theorem release_once_on_return_witness :
    (PyGetKeypointDescriptors cvZ engZ memZ (fun _ _ => some 4096) (fun _ _ => 0) imZ
      framesZ w0).1.isOk = true ∧
    (PyGetKeypointDescriptors cvZ engZ memZ (fun _ _ => some 4096) (fun _ _ => 0) imZ
      framesZ w0).2.destroyAllImages = w0.destroyAllImages + 1 :=
  have h : (PyGetKeypointDescriptors cvZ engZ memZ (fun _ _ => some 4096)
      (fun _ _ => 0) imZ framesZ w0).1.isOk = true := by
    obtain ⟨frames, desc, w', hrun, _⟩ := reverse_then_forward_in_range cvZ engZ memZ
      (fun _ _ => some 4096) (fun _ _ => 0) imZ framesZ w0 (by decide) (fun _ _ => rfl)
      (fun img l => by simp [engZ, List.map_map, Function.comp_def, KeypointSt.geometry])
      (by decide) (fun _ => 0) (fun _ => 0) rfl rfl
    rw [hrun]; rfl
  ⟨h, (release_once_on_return cvZ engZ memZ (fun _ _ => some 4096) (fun _ _ => 0) imZ
    arrZ framesZ w0).2.2.1 h⟩

/-- C4 on the failing input `PyImage(65536, 65536)`: the constructor returns
an image of stride 65536 whose buffer is empty, while `height * stride` is
`2^32`; and on `PyImage(2147483647, 2)` it returns an image whose stride is
negative, so not a multiple of 4 that is at least the width. -/
theorem PyImage_init_overflow :
    PyImage.init (0 : Int) 65536 65536 =
      .ok { width := 65536, height := 65536, stride := 65536, vimage := [] } ∧
    (([] : List Int).length : Int) ≠ 65536 * 65536 ∧
    PyImage.init (0 : Int) 2147483647 2 =
      .ok { width := 2147483647, height := 2, stride := -2147483648, vimage := [] } := by
  refine ⟨?_, ?_, ?_⟩
  · decide
  · decide
  · decide

/-- Counterexample to C5: for a null list the returned tables do not have the
shapes `[0, 4]` and `[0, 128]`. -/
theorem ReturnKeypoints_null_not_2d :
    ¬ ∃ frames desc, ReturnKeypoints memZ [] = .ok (frames, desc) ∧
      frames.dims = [0, 4] ∧ desc.dims = [0, 128] := by
  rintro ⟨frames, desc, h, hf, _⟩
  have e : ReturnKeypoints memZ [] = .ok (emptyListArray, emptyListArray) := rfl
  rw [e] at h
  simp only [Outcome.ok.injEq, Prod.mk.injEq] at h
  rw [← h.1] at hf
  exact absurd hf (by decide)

/-- C5 as amended: for a null list `ReturnKeypoints` returns two arrays with
no elements, each 1-dimensional of shape `[0]`, and so does `PyGetKeypoints`
when the engine finds no keypoint. -/
theorem ReturnKeypoints_null (E : Engine F) (mem : List Nat → Option (Nat → F))
    (im : PyImage F) (w : World) :
    ReturnKeypoints mem ([] : Keypoint F) =
      .ok ({ dims := [0], data := [] }, { dims := [0], data := [] }) ∧
    (E.GetKeypoints (toImageSt im) = [] →
      (PyGetKeypoints E mem im w).1 =
        .ok ({ dims := [0], data := [] }, { dims := [0], data := [] })) := by
  refine ⟨rfl, ?_⟩
  intro h
  unfold PyGetKeypoints
  simp only [h]
  rfl

/-- Witness of C5 as amended, with an engine that finds no keypoint. -/
theorem ReturnKeypoints_null_witness :
    engZ.GetKeypoints (toImageSt imZ) = [] ∧
    (PyGetKeypoints engZ memZ imZ w0).1 =
      .ok ({ dims := [0], data := [] }, { dims := [0], data := [] }) :=
  ⟨rfl, (ReturnKeypoints_null engZ memZ imZ w0).2 rfl⟩

/-- On an image as the constructors build it, with `height*stride` in the
range of `int`, a `SetData` that returns keeps width, height, stride and the
buffer length, stores at index `i*stride+j`
(for `i < height`, `j < width`) the converted value of source element `(i,j)`,
which is `n*(1.0f/255.0f)` for the extracted integer `n` of an integer-typed
source and the extracted float otherwise, and leaves every other index
unchanged, in particular every padding index `i*stride+j` with
`width ≤ j < stride`. -/
theorem SetData_in_buffer (cv : Conv F D) (im im' : PyImage F) (arr : NdArrayObj D)
    (hbuilt : im.built) (hsize : im.height * im.stride ≤ 2 ^ 31)
    (hok : PyImage.SetData cv im arr = .ok im') :
    im'.width = im.width ∧ im'.height = im.height ∧ im'.stride = im.stride ∧
    im'.vimage.length = im.vimage.length ∧
    (∀ i j : Nat, (i : Int) < im.height → (j : Int) < im.width →
      (integerTyped cv arr = true → ∃ n, extract_int cv (arr.item i j) = .ok n ∧
        im'.vimage[((i : Int) * im.stride + j).toNat]? = some (cv.scale255 n)) ∧
      (integerTyped cv arr = false → ∃ v, extract_float cv (arr.item i j) = .ok v ∧
        im'.vimage[((i : Int) * im.stride + j).toNat]? = some v)) ∧
    (∀ p : Nat, (∀ i j : Nat, (i : Int) < im.height → (j : Int) < im.width →
        (p : Int) ≠ (i : Int) * im.stride + j) → im'.vimage[p]? = im.vimage[p]?) ∧
    (∀ i j : Nat, (i : Int) < im.height → im.width ≤ (j : Int) → (j : Int) < im.stride →
      im'.vimage[((i : Int) * im.stride + j).toNat]? =
        im.vimage[((i : Int) * im.stride + j).toNat]?) := by
  obtain ⟨hH, hW, hH0, hW0, buf, him, hbr⟩ := SetData_ok cv im im' arr hok
  have hstride : im.width ≤ im.stride := by
    rcases hbuilt with hs | he
    · exact hs
    · exfalso
      rw [he] at hbr
      rcases hbr with ⟨_, h⟩ | ⟨_, h⟩
      · exact fillImage_empty im arr _ _ _ hH hW hH0 hW0 buf h
      · exact fillImage_empty im arr _ _ _ hH hW hH0 hW0 buf h
  have hS : im.stride = (im.stride.toNat : Nat) := by omega
  have hWS : arr.shape.getD 1 0 ≤ im.stride.toNat := by omega
  have idx : ∀ i j : Nat, ((i : Int) * im.stride + j).toNat = i * im.stride.toNat + j := by
    intro i j
    have e : (i : Int) * im.stride + j = ((i * im.stride.toNat + j : Nat) : Int) := by
      push_cast; rw [← hS]
    rw [e, Int.toNat_ofNat]
  have hsz : arr.shape.getD 0 0 * im.stride.toNat ≤ 2 ^ 31 := by
    rw [hH, hS] at hsize
    exact_mod_cast hsize
  have key : ∀ conv : PyObject D → Outcome F, fillImage im arr conv im.vimage = .ok buf →
      ImageInv arr conv im.stride.toNat (arr.shape.getD 1 0) im.vimage (arr.shape.getD 0 0) buf :=
    fun conv h => fillImage_spec im arr conv _ _ _ hH hW hS hWS hsz im.vimage buf h
  have hlen : buf.length = im.vimage.length := by
    rcases hbr with ⟨_, h⟩ | ⟨_, h⟩
    · exact (key _ h).1
    · exact (key _ h).1
  have hframe : ∀ p, (∀ r c, r < arr.shape.getD 0 0 → c < arr.shape.getD 1 0 →
      p ≠ r * im.stride.toNat + c) → buf[p]? = im.vimage[p]? := by
    rcases hbr with ⟨_, h⟩ | ⟨_, h⟩
    · exact (key _ h).2.2
    · exact (key _ h).2.2
  subst him
  refine ⟨rfl, rfl, rfl, hlen, ?_, ?_, ?_⟩
  · intro i j hi hj
    have hi' : i < arr.shape.getD 0 0 := by omega
    have hj' : j < arr.shape.getD 1 0 := by omega
    rw [idx]
    constructor
    · intro ht
      rcases hbr with ⟨_, h⟩ | ⟨hf, _⟩
      · obtain ⟨v, hv, hb⟩ := (key _ h).2.1 i j hi' hj'
        unfold convInt at hv
        obtain ⟨n, hn, hv⟩ := (bind_ok_iff _ _ _).1 hv
        simp only [Outcome.ok.injEq] at hv
        exact ⟨n, hn, by rw [hv]; exact hb⟩
      · rw [ht] at hf; cases hf
    · intro ht
      rcases hbr with ⟨hf, _⟩ | ⟨_, h⟩
      · rw [ht] at hf; cases hf
      · exact (key _ h).2.1 i j hi' hj'
  · intro p hp
    apply hframe
    intro r c hr hc e
    apply hp r c (by omega) (by omega)
    rw [e]; push_cast; rw [← hS]
  · intro i j hi hj1 hj2
    rw [idx]
    apply hframe
    intro r c hr hc
    exact index_ne _ i j r c (by omega) (by omega) (Or.inr (by omega))

theorem bind_ok {α β : Type} (a : α) (f : α → Outcome β) : (Outcome.ok a).bind f = f a := rfl

theorem bind_undefined {α β : Type} (u : String) (f : α → Outcome β) :
    (Outcome.undefined u : Outcome α).bind f = .undefined u := rfl

/-- A row of the double loop of `SetData` completes when its elements convert
and its indices are inside the buffer. -/
theorem fillRow_total (arr : NdArrayObj D) (conv : PyObject D → Outcome F) (S W i : Nat)
    (buf : List F) (hget : ∀ j, j < W → arr.getitem2 i j = .ok (arr.item i j))
    (hconv : ∀ j, j < W → ∃ v, conv (arr.item i j) = .ok v) (hlen : i * S + W ≤ buf.length)
    (hr : i * S + W ≤ 2 ^ 31) :
    ∃ buf', forLoop W (fun j b => fillStep arr conv (S : Int) i j b) 0 buf = .ok buf' ∧
      buf'.length = buf.length := by
  apply forLoop_total W _ (fun _ b => b.length = buf.length) _ W 0 buf rfl (Nat.zero_le _) rfl
  intro j b hj hb
  obtain ⟨v, hv⟩ := hconv j hj
  have e := toInt32_index i S j (by omega)
  refine ⟨b.set (i * S + j) v, ?_, by simpa using hb⟩
  show fillStep arr conv (S : Int) i j b = _
  unfold fillStep
  simp only [bind_eq, hget j hj, Outcome.bind, hv, e]
  exact writeAt_nat _ _ _ (by omega)

/-- On the image of `PyImage(65536, 65537)` the first store of the second row
is past the end of the buffer. -/
theorem fillImage_bigImZ :
    fillImage bigImZ bigArrZ (convInt cvZ) bigImZ.vimage = .undefined "store outside the buffer" := by
  have hrow := fillRow_total bigArrZ (convInt cvZ) 65536 65536 0 bigImZ.vimage
    (fun j hj => by
      unfold NdArrayObj.getitem2
      show (if 0 < 65537 ∧ j < 65536 then _ else _) = _
      rw [if_pos ⟨by decide, hj⟩])
    (fun j _ => ⟨0, rfl⟩)
    (by show 0 * 65536 + 65536 ≤ (List.replicate 65536 (0 : Int)).length
        rw [List.length_replicate])
    (by decide)
  obtain ⟨buf1, h1, hl1⟩ := hrow
  have hl : buf1.length = 65536 := by
    rw [hl1]; show (List.replicate 65536 (0 : Int)).length = 65536
    rw [List.length_replicate]
  have hstep : fillStep bigArrZ (convInt cvZ) (65536 : Int) 1 0 buf1 =
      .undefined "store outside the buffer" := by
    unfold fillStep
    have hg : bigArrZ.getitem2 1 0 = .ok (.int 0) := by decide
    have hc : convInt cvZ (.int 0 : PyObject Int) = .ok 0 := by decide
    simp only [bind_eq, hg, Outcome.bind, hc]
    unfold writeAt
    rw [if_neg (by rw [hl]; decide)]
  have e : fillImage bigImZ bigArrZ (convInt cvZ) bigImZ.vimage =
      forLoop 65537 (fun i buf =>
        forLoop 65536 (fun j b => fillStep bigArrZ (convInt cvZ) (65536 : Int) i j b) 0 buf)
        0 bigImZ.vimage := rfl
  rw [e, forLoop_unfold, if_pos (by decide)]
  have h1' : forLoop 65536 (fun j b => fillStep bigArrZ (convInt cvZ) (65536 : Int) 0 j b) 0
      bigImZ.vimage = .ok buf1 := h1
  rw [h1', bind_ok, forLoop_unfold, if_pos (by decide)]
  rw [forLoop_unfold, if_pos (by decide), hstep, bind_undefined, bind_undefined]

/-- C6 on the failing input: `PyImage(65536, 65537)` returns an image whose
buffer holds one row of 65536 elements, and `SetData` with a source of
matching shape (65537 rows, 65536 columns) passes its checks and stores past
the end of that buffer at row 1. -/
theorem SetData_stores_past_buffer :
    PyImage.init (0 : Int) 65536 65537 = .ok bigImZ ∧
    bigImZ.vimage.length = 65536 ∧
    PyImage.SetData cvZ bigImZ bigArrZ = .undefined "store outside the buffer" := by
  refine ⟨?_, List.length_replicate _ _, ?_⟩
  · have e1 : andNot3 (toInt32 (65536 + 3)) = 65536 := by decide
    have e2 : toInt32 (65537 * 65536) = 65536 := by decide
    unfold PyImage.init
    rw [if_neg (by decide)]
    simp only []
    rw [e1, e2, if_neg (by decide)]
    rfl
  · have hs : ¬ (bigArrZ.shape.length ≠ 2) := by decide
    have h1 : extract_int cvZ (.int (bigArrZ.shape.getD 0 0)) = .ok 65537 := by decide
    have h2 : ¬ (bigImZ.height ≠ 65537) := by decide
    have h3 : extract_int cvZ (.int (bigArrZ.shape.getD 1 0)) = .ok 65536 := by decide
    have h4 : ¬ (bigImZ.width ≠ 65536) := by decide
    have h5 : bigArrZ.getitem2 0 0 = .ok (.int 0) := by decide
    have h6 : (isIntDtype bigArrZ.dtype && int_convertible cvZ (.int 0 : PyObject Int)) = true := by
      decide
    unfold PyImage.SetData
    rw [if_neg hs]
    simp only [bind_eq]
    rw [h1, bind_ok, if_neg h2, h3, bind_ok, if_neg h4, h5, bind_ok, if_pos h6,
      fillImage_bigImZ, bind_undefined]

/-- C7: for an alignment of 8, 16 or 32 and the base address `p` returned by
the underlying `malloc`, `py_aligned_malloc` returns `p + off` with
`off = 4 + align - ((p+4) mod align)`, and that address is a multiple of the
alignment. -/
theorem py_aligned_malloc_aligned (malloc : Nat → Option Nat) (size align p : Nat)
    (halign : align = 8 ∨ align = 16 ∨ align = 32)
    (hp : malloc ((size + align) % 2 ^ 64) = some p) :
    ∃ q : Int, py_aligned_malloc malloc size align = some q ∧
      q = (p : Int) + (4 + align - ((p + 4) % align : Nat)) ∧ q % align = 0 := by
  refine ⟨(p : Int) + alignedOff p align, ?_, ?_, ?_⟩
  · unfold py_aligned_malloc; rw [hp]
  · rw [alignedOff_eq p align halign]
  · rw [alignedOff_eq p align halign]
    rcases halign with h | h | h <;> subst h <;> omega

/-- Witness of C7: alignment 16 and base address 4104. -/
theorem py_aligned_malloc_aligned_witness :
    ((16 : Nat) = 8 ∨ (16 : Nat) = 16 ∨ (16 : Nat) = 32) ∧
    (fun _ => some 4104 : Nat → Option Nat) ((544 + 16) % 2 ^ 64) = some 4104 ∧
    ∃ q : Int, py_aligned_malloc (fun _ => some 4104) 544 16 = some q ∧
      q = ((4104 : Nat) : Int) + (4 + (16 : Nat) - ((4104 + 4) % 16 : Nat)) ∧
      q % (16 : Nat) = 0 :=
  ⟨by decide, rfl, py_aligned_malloc_aligned (fun _ => some 4104) 544 16 4104 (by decide) rfl⟩

/-- C8 on the failing input: when the allocation of the record of row 0 fails,
`PyGetKeypointDescriptors` does not raise; it stores through the null
`Keypoint`. -/
theorem null_keypoint_dereferenced :
    PyGetKeypointDescriptors cvZ engZ memZ (fun _ _ => none) (fun _ _ => 0) imZ
      framesZ w0 = (.undefined "store through a null Keypoint", w0) := by
  simp [PyGetKeypointDescriptors, buildKeypoints, forLoop_unfold, buildKeypoint,
    py_aligned_malloc, rowItem, extract_float, number_convertible, PyNumber_Float, Outcome.bind,
    bind_eq, framesZ]

/-- C9 on every image: the four values of `getinitargs` match none of the
registered constructors, so restoring raises `ArgumentError`. -/
theorem pickle_restore_fails (cv : Conv F D) (im : PyImage F) :
    Image_new cv (getinitargs im) = .raised "Boost.Python.ArgumentError" := rfl

/-- C10 on the failing input `size = 100`, `align = 4`, `p = 4096`: the offset
is 8, so the returned region of 100 bytes ends 4 bytes after the block of
`size + align` bytes; and on `size = 544`, `align = 16`, `p = 4108` the
offset is 20 and the region again ends 4 bytes after the block. -/
theorem aligned_region_overruns_block :
    alignedOff 4096 4 = 8 ∧
    py_aligned_malloc (fun _ => some 4096) 100 4 = some 4104 ∧
    ¬ insideBlock 4096 (100 + 4) 4104 (4104 + 100) ∧
    alignedOff 4108 16 = 20 ∧
    py_aligned_malloc (fun _ => some 4108) 544 16 = some 4128 ∧
    ¬ insideBlock 4108 (544 + 16) 4128 (4128 + 544) := by
  decide

end SiftFastPy
